import Mathlib

/-!
# pcap-epoll: signal and packet-capture dispatch loop

A shallow embedding of `src/network/pcap/epoll/pcap-epoll.c`.

The program is a single-threaded loop around `epoll_wait` that serves two
descriptors: a `signalfd` and the selectable descriptor of a libpcap session.
The global `cfg` structure becomes the record `Cfg`; every call into the
operating system or into libpcap is appended to `St.trace`, every line written
to `stderr` is appended to `St.err`, and the values those calls return are
supplied by an explicit environment (`Env` for start-up, one `Wake` per
return of `epoll_wait`).
-/

namespace PcapEpoll

/-! ## Constants taken from the Linux system headers -/

def SIGHUP : Nat := 1
def SIGINT : Nat := 2
def SIGQUIT : Nat := 3
def SIGALRM : Nat := 14
def SIGTERM : Nat := 15
def EINTR : Int := 4
def EPOLLIN : Nat := 1
def INT_MAX : Int := 2147483647

/-- Size in bytes of `struct signalfd_siginfo`, as `size_t`. -/
def sizeof_info : Int := 128

/-- Conversion of a machine integer to C `int` (32 bit, two's complement).
It is applied to the result of `++` on an `int`: overflow, which C leaves
undefined, wraps around here, and the statements about `cfg.ticks` below all
assume a counter below `INT_MAX`. -/
def to_int (x : Int) : Int := (x + 2147483648) % 4294967296 - 2147483648

/-- Conversion of an `ssize_t` to `size_t` (64 bit), as done by the usual
arithmetic conversions when `read(...)` is compared with `sizeof(info)`. -/
def to_size_t (x : Int) : Int := x % 18446744073709551616

/-- Line 42: `int sigs[] = {SIGHUP,SIGTERM,SIGINT,SIGQUIT,SIGALRM};` -/
def sigs : List Nat := [SIGHUP, SIGTERM, SIGINT, SIGQUIT, SIGALRM]

/-! ## Data model -/

/-- The global `cfg` (lines 14-31). `pcap` is the session pointer, `0` being
`NULL`; `filter` is `none` for a `NULL` pointer. The `fp` member is only ever
handed to libpcap and is not represented. -/
structure Cfg where
  verbose : Int
  prog : String
  dev : String
  filter : Option String
  pcap_fd : Int
  pcap : Nat
  err : String
  snaplen : Int
  ticks : Int
  signal_fd : Int
  epoll_fd : Int
  deriving DecidableEq, Repr

/-- The static initialiser of `cfg` (lines 27-31); members that are not named
are zero. -/
def cfg_init : Cfg :=
  { verbose := 0, prog := "", dev := "eth0", filter := none, pcap_fd := -1,
    pcap := 0, err := "", snaplen := 65535, ticks := 0, signal_fd := 0,
    epoll_fd := 0 }

/-- Calls made to the operating system and to libpcap. -/
inductive Call where
  | sigprocmask_all
  | signalfd (fd : Int) (mask : List Nat)
  | epoll_create (size : Int)
  | epoll_ctl_add (epfd : Int) (events : Nat) (fd : Int)
  | pcap_open_live (dev : String) (snaplen : Int) (promisc : Int) (to_ms : Int)
  | pcap_get_selectable_fd (p : Nat)
  | pcap_compile (p : Nat) (filter : String)
  | pcap_setfilter (p : Nat)
  | alarm (secs : Nat)
  | epoll_wait (epfd : Int)
  | read (fd : Int)
  | pcap_stats (p : Nat)
  | pcap_dispatch (p : Nat) (cnt : Int)
  | pcap_close (p : Nat)
  | close (fd : Int)
  deriving DecidableEq, Repr

/-- Lines written to `stderr`. -/
inductive Diag where
  | usage (prog : String)
  | packet_of_length (len : Nat)
  | error_in_filter (err : String)
  | cant_set_filter (err : String)
  | pcap_stat_error
  | received (n : Nat)
  | dropped (n : Nat)
  | adding_fd (fd : Int)
  | epoll_ctl_failed
  | failed_to_read_signal_fd
  | got_signal (signo : Nat)
  | pcap_perror
  | signalfd_failed
  | epoll_failed
  | cant_open (dev : String) (err : String)
  | epoll_reports_fd (fd : Int)
  deriving DecidableEq, Repr

/-- Program state: the global `cfg`, the calls made so far, the diagnostics
written so far. -/
structure St where
  cfg : Cfg
  trace : List Call
  err : List Diag
  deriving DecidableEq, Repr

/-- What the environment answers on one return of `epoll_wait` and on the
calls the loop body may make before the next `epoll_wait`. -/
structure Wake where
  n : Int
  errno : Int
  fd : Int
  read_ret : Int
  signo : Nat
  stats_ret : Int
  ps_recv : Nat
  ps_drop : Nat
  dispatch_ret : Int
  pkts : List Nat
  deriving DecidableEq, Repr

/-- What the environment answers during start-up, and the sequence of
`epoll_wait` returns that follows. -/
structure Env where
  signalfd_ret : Int
  epoll_create_ret : Int
  ctl_signal_ret : Int
  pcap_open_ret : Nat
  open_err : String
  selectable_fd : Int
  compile_ret : Int
  setfilter_ret : Int
  ctl_pcap_ret : Int
  script : List Wake
  deriving DecidableEq, Repr

/-- One result of `getopt(argc,argv,"vf:i:h")`. -/
inductive Opt where
  | v
  | f (optarg : String)
  | i (optarg : String)
  | h
  | unknown
  deriving DecidableEq, Repr

/-- How a run ends: the process exits with a status, or the answers of the
environment are used up and the process stays blocked in `epoll_wait`. -/
inductive Outcome where
  | exited (status : Int)
  | blocked
  deriving DecidableEq, Repr

/-- How the `while` loop of `main` is left: control reaches the label `done`,
or the process stays blocked in `epoll_wait`. -/
inductive LoopEnd where
  | done
  | blocked
  deriving DecidableEq, Repr

/-! ## Operations -/

def call (s : St) (c : Call) : St := { s with trace := s.trace ++ [c] }

def log (s : St) (d : Diag) : St := { s with err := s.err ++ [d] }

/-- `sigaddset` on a signal set kept as a duplicate-free list. -/
def sigaddset (sw : List Nat) (sig : Nat) : List Nat :=
  if sig ∈ sw then sw else sw ++ [sig]

/-- Lines 33-39. The `exit(-1)` is represented by the caller. -/
def usage (s : St) : St := log s (.usage s.cfg.prog)

/-- Lines 44-45. -/
def periodic_work (s : St) : St := s

/-- Lines 47-49. -/
def cb (s : St) (len : Nat) : St :=
  if s.cfg.verbose ≠ 0 then log s (.packet_of_length len) else s

/-- Lines 51-67. -/
def set_filter (s : St) (env : Env) : Int × St :=
  match s.cfg.filter with
  | none => (0, s)
  | some flt =>
    let s1 := call s (.pcap_compile s.cfg.pcap flt)
    if env.compile_ret ≠ 0 then
      (env.compile_ret, log s1 (.error_in_filter s1.cfg.err))
    else
      let s2 := call s1 (.pcap_setfilter s1.cfg.pcap)
      if env.setfilter_ret ≠ 0 then
        (env.setfilter_ret, log s2 (.cant_set_filter s2.cfg.err))
      else (0, s2)

/-- Lines 69-75. -/
def do_stats (s : St) (w : Wake) : St :=
  if s.cfg.verbose = 0 then s
  else
    let s1 := call s (.pcap_stats s.cfg.pcap)
    if w.stats_ret < 0 then log s1 .pcap_stat_error
    else log (log s1 (.received w.ps_recv)) (.dropped w.ps_drop)

/-- Lines 77-89. `ret` is what `epoll_ctl` returns. -/
def new_epoll (s : St) (events : Nat) (fd : Int) (ret : Int) : Int × St :=
  let s1 := if s.cfg.verbose ≠ 0 then log s (.adding_fd fd) else s
  let s2 := call s1 (.epoll_ctl_add s1.cfg.epoll_fd events fd)
  if ret = -1 then (ret, log s2 .epoll_ctl_failed) else (ret, s2)

/-- Lines 91-116. -/
def handle_signal (s : St) (w : Wake) : Int × St :=
  let s1 := call s (.read s.cfg.signal_fd)
  if to_size_t w.read_ret ≠ sizeof_info then
    (-1, log s1 .failed_to_read_signal_fd)
  else if w.signo = SIGALRM then
    let s2 := periodic_work s1
    let s3 := { s2 with cfg := { s2.cfg with ticks := to_int (s2.cfg.ticks + 1) } }
    let s4 := if Int.tmod s3.cfg.ticks 10 = 0 then do_stats s3 w else s3
    (0, call s4 (.alarm 1))
  else
    (-1, log s1 (.got_signal w.signo))

/-- Lines 118-129. The callback runs once per delivered packet. -/
def get_pcap_data (s : St) (w : Wake) : Int × St :=
  let s1 := call s (.pcap_dispatch s.cfg.pcap 10000)
  let s2 := w.pkts.foldl cb s1
  if w.dispatch_ret < 0 then (-1, log s2 .pcap_perror) else (0, s2)

/-- Lines 136-143: the option loop. The flag is `true` when `usage` was
called, which ends the process. -/
def getopt_loop (s : St) : List Opt → Bool × St
  | [] => (false, s)
  | .v :: rest =>
    getopt_loop { s with cfg := { s.cfg with verbose := to_int (s.cfg.verbose + 1) } } rest
  | .f a :: rest => getopt_loop { s with cfg := { s.cfg with filter := some a } } rest
  | .i a :: rest => getopt_loop { s with cfg := { s.cfg with dev := a } } rest
  | .h :: _ => (true, usage s)
  | .unknown :: _ => (true, usage s)

/-- Lines 145-179: everything between the option loop and the `while`. The
flag is `true` when control reaches the loop and `false` on `goto done`. -/
def startup (s : St) (env : Env) : Bool × St :=
  let s := call s .sigprocmask_all
  let sw := sigs.foldl sigaddset []
  let s := call s (.signalfd (-1) sw)
  let s := { s with cfg := { s.cfg with signal_fd := env.signalfd_ret } }
  if s.cfg.signal_fd = -1 then (false, log s .signalfd_failed)
  else
    let s := call s (.epoll_create 1)
    let s := { s with cfg := { s.cfg with epoll_fd := env.epoll_create_ret } }
    if s.cfg.epoll_fd = -1 then (false, log s .epoll_failed)
    else
      let r := new_epoll s EPOLLIN s.cfg.signal_fd env.ctl_signal_ret
      if r.1 ≠ 0 then (false, r.2)
      else
        let s := call r.2 (.pcap_open_live r.2.cfg.dev r.2.cfg.snaplen 1 0)
        let s := { s with cfg := { s.cfg with pcap := env.pcap_open_ret } }
        if s.cfg.pcap = 0 then
          let s := { s with cfg := { s.cfg with err := env.open_err } }
          (false, log s (.cant_open s.cfg.dev s.cfg.err))
        else
          let s := call s (.pcap_get_selectable_fd s.cfg.pcap)
          let s := { s with cfg := { s.cfg with pcap_fd := env.selectable_fd } }
          let s := (set_filter s env).2
          let r := new_epoll s EPOLLIN s.cfg.pcap_fd env.ctl_pcap_ret
          if r.1 ≠ 0 then (false, r.2)
          else (true, call r.2 (.alarm 1))

/-- Lines 180-184: the `while` loop, one `Wake` per return of `epoll_wait`. -/
def main_loop (s : St) : List Wake → LoopEnd × St
  | [] => (.blocked, call s (.epoll_wait s.cfg.epoll_fd))
  | w :: rest =>
    let s1 := call s (.epoll_wait s.cfg.epoll_fd)
    if w.n > 0 then
      let s2 := if s1.cfg.verbose > 1 then log s1 (.epoll_reports_fd w.fd) else s1
      if w.fd = s2.cfg.signal_fd then
        let r := handle_signal s2 w
        if r.1 < 0 then (.done, r.2) else main_loop r.2 rest
      else if w.fd = s2.cfg.pcap_fd then
        let r := get_pcap_data s2 w
        if r.1 < 0 then (.done, r.2) else main_loop r.2 rest
      else main_loop s2 rest
    else (.done, s1)

/-- Lines 186-188: the code at the label `done`, before `return 0`. -/
def teardown (s : St) : St :=
  let s1 := if s.cfg.pcap ≠ 0 then call s (.pcap_close s.cfg.pcap) else s
  if s1.cfg.pcap_fd > 0 then call s1 (.close s1.cfg.pcap_fd) else s1

/-- Lines 180-189: the loop, then the label `done` and `return 0`. -/
def serve (s : St) (script : List Wake) : Outcome × St :=
  match main_loop s script with
  | (.done, s1) => (.exited 0, teardown s1)
  | (.blocked, s1) => (.blocked, s1)

/-- The state at line 133: the static `cfg` with `cfg.prog = argv[0]`. -/
def st_init (argv0 : String) : St :=
  { cfg := { cfg_init with prog := argv0 }, trace := [], err := [] }

/-- Lines 131-189. -/
def main (argv0 : String) (opts : List Opt) (env : Env) : Outcome × St :=
  match getopt_loop (st_init argv0) opts with
  | (true, s) => (.exited (-1), s)
  | (false, s) =>
    match startup s env with
    | (false, s1) => (.exited 0, teardown s1)
    | (true, s1) => serve s1 env.script

/-! ## Vocabulary of the statements -/

/-- The calls made by the code at the label `done` for a given `cfg`. -/
def teardown_calls (c : Cfg) : List Call :=
  (if c.pcap ≠ 0 then [Call.pcap_close c.pcap] else []) ++
  (if c.pcap_fd > 0 then [Call.close c.pcap_fd] else [])

/-- Number of `SIGALRM` records that `handle_signal` handles when the loop
is run on a script, for signal descriptor `sfd` and capture descriptor `pfd`.
The script is followed as the loop follows it: a wake for the signal
descriptor whose read is complete and carries `SIGALRM` counts as one alarm;
wakes for the capture descriptor or for any other descriptor count nothing;
and nothing after the wake on which the loop is left (a non-positive return of
`epoll_wait`, a failed read, another signal, a failed dispatch) is counted,
since the loop never gets to it. -/
def alarms_handled (sfd pfd : Int) : List Wake → Nat
  | [] => 0
  | w :: rest =>
    if w.n > 0 then
      if w.fd = sfd then
        if to_size_t w.read_ret = sizeof_info ∧ w.signo = SIGALRM then
          alarms_handled sfd pfd rest + 1
        else 0
      else if w.fd = pfd then
        if w.dispatch_ret < 0 then 0 else alarms_handled sfd pfd rest
      else alarms_handled sfd pfd rest
    else 0

/-- The filter expression given by the last `-f` option, if any. -/
def opt_filter (opts : List Opt) (init : Option String) : Option String :=
  opts.foldl (fun acc o => match o with | Opt.f a => some a | _ => acc) init

/-- The device given by the last `-i` option, if any. -/
def opt_dev (opts : List Opt) (init : String) : String :=
  opts.foldl (fun acc o => match o with | Opt.i a => a | _ => acc) init

/-- No option makes the option loop call `usage`. -/
def no_usage (opts : List Opt) : Prop := ∀ o ∈ opts, o ≠ Opt.h ∧ o ≠ Opt.unknown

instance (opts : List Opt) : Decidable (no_usage opts) := by
  unfold no_usage; infer_instance

/-- The start-up calls on which `main` gives up when they fail all succeed
(a rejected filter is not among them: the result of `set_filter` is not
examined). -/
def startup_ok (env : Env) : Prop :=
  env.signalfd_ret ≠ -1 ∧ env.epoll_create_ret ≠ -1 ∧ env.ctl_signal_ret = 0 ∧
  env.pcap_open_ret ≠ 0 ∧ env.ctl_pcap_ret = 0

instance (env : Env) : Decidable (startup_ok env) := by
  unfold startup_ok; infer_instance

/-- The calls `set_filter` makes for a given filter setting. -/
def filter_calls (c : Cfg) (env : Env) (p : Nat) : List Call :=
  match c.filter with
  | none => []
  | some flt =>
    Call.pcap_compile p flt ::
      (if env.compile_ret ≠ 0 then [] else [Call.pcap_setfilter p])

/-- Calls that the loop body can make. -/
def is_loop_call : Call → Bool
  | .epoll_wait _ => true
  | .read _ => true
  | .pcap_stats _ => true
  | .alarm _ => true
  | .pcap_dispatch _ _ => true
  | _ => false

/-- Two `cfg` values agree on everything the loop does not write, that is on
every member but `ticks`. -/
def same_but_ticks (c d : Cfg) : Prop := d = { c with ticks := d.ticks }

def is_pcap_stats : Call → Bool
  | .pcap_stats _ => true
  | _ => false

def is_alarm : Call → Bool
  | .alarm _ => true
  | _ => false

def is_epoll_wait : Call → Bool
  | .epoll_wait _ => true
  | _ => false

def is_pcap_close : Call → Bool
  | .pcap_close _ => true
  | _ => false

def is_close : Call → Bool
  | .close _ => true
  | _ => false

/-- The session bookkeeping that the code at `done` relies on, relative to
the answers of the environment: so far nothing was closed; a non-null
`cfg.pcap` is the handle returned by a recorded `pcap_open_live`; a positive
`cfg.pcap_fd` is the descriptor returned by a recorded
`pcap_get_selectable_fd`; and once `pcap_open_live` was called `cfg.pcap`
holds what it returned. -/
def session_inv (env : Env) (s : St) : Prop :=
  s.trace.countP is_pcap_close = 0 ∧ s.trace.countP is_close = 0 ∧
  (s.cfg.pcap ≠ 0 →
    s.cfg.pcap = env.pcap_open_ret ∧ ∃ d sl, Call.pcap_open_live d sl 1 0 ∈ s.trace) ∧
  (0 < s.cfg.pcap_fd →
    s.cfg.pcap_fd = env.selectable_fd ∧
    Call.pcap_get_selectable_fd env.pcap_open_ret ∈ s.trace) ∧
  ((∃ d sl, Call.pcap_open_live d sl 1 0 ∈ s.trace) → s.cfg.pcap = env.pcap_open_ret) ∧
  (env.signalfd_ret = -1 ∨ env.epoll_create_ret = -1 ∨ env.ctl_signal_ret ≠ 0 ∨
      env.pcap_open_ret = 0 → s.cfg.pcap = 0 ∧ s.cfg.pcap_fd = -1)

/-- Modelled from the spec: the lifetime of the capture descriptor, which
libpcap implements and the source does not show. Sections 3 and 4.2 of the
specification make the descriptor a part of the capture session that owns
it, a handle usable for the lifetime of the session. After the calls `tr`,
the descriptor `fd` of session `p` is valid when it was obtained from the
session and neither the session nor the descriptor has been closed since. -/
def descriptor_valid (tr : List Call) (p : Nat) (fd : Int) : Bool :=
  decide (Call.pcap_get_selectable_fd p ∈ tr) && !decide (Call.pcap_close p ∈ tr) &&
    !decide (Call.close fd ∈ tr)

/-- Number of statistics queries in a trace. -/
def stats_count (tr : List Call) : Nat := tr.countP is_pcap_stats

/-- The state in which the loop body runs after `epoll_wait` has returned a
positive count for `w`: the call is recorded and, at verbosity above 1, the
ready descriptor is reported (lines 180-181). -/
def after_wait (s : St) (w : Wake) : St :=
  let s1 := call s (.epoll_wait s.cfg.epoll_fd)
  if s1.cfg.verbose > 1 then log s1 (.epoll_reports_fd w.fd) else s1

/-- A well-formed `Wake` used in examples: `epoll_wait` returned 1 for
descriptor `fd`, a full record with signal `signo` is available. -/
def wake_signal (fd : Int) (signo : Nat) : Wake :=
  { n := 1, errno := 0, fd := fd, read_ret := 128, signo := signo,
    stats_ret := 0, ps_recv := 0, ps_drop := 0, dispatch_ret := 0, pkts := [] }

/-- A `Wake` used in examples: `epoll_wait` returned 1 for the capture
descriptor `fd` and `pcap_dispatch` then returns `ret`. -/
def wake_pcap (fd : Int) (ret : Int) : Wake :=
  { n := 1, errno := 0, fd := fd, read_ret := 0, signo := 0,
    stats_ret := 0, ps_recv := 0, ps_drop := 0, dispatch_ret := ret, pkts := [] }

/-- A `Wake` used in examples: `epoll_wait` returned -1 with `errno` set to
`EINTR`. -/
def wake_eintr : Wake :=
  { n := -1, errno := EINTR, fd := 0, read_ret := 0, signo := 0,
    stats_ret := 0, ps_recv := 0, ps_drop := 0, dispatch_ret := 0, pkts := [] }

/-- An environment used in examples in which every start-up call succeeds:
the signal descriptor is 3, the epoll descriptor 4, the capture session 7
with descriptor 5. -/
def env_ok : Env :=
  { signalfd_ret := 3, epoll_create_ret := 4, ctl_signal_ret := 0, pcap_open_ret := 7,
    open_err := "", selectable_fd := 5, compile_ret := 0, setfilter_ret := 0,
    ctl_pcap_ret := 0, script := [] }

/-- A running state used in examples: signal descriptor 3, epoll descriptor
4, capture session 7 with descriptor 5, verbosity 1. -/
def st_running : St :=
  { cfg := { cfg_init with verbose := 1, signal_fd := 3, epoll_fd := 4, pcap := 7,
                           pcap_fd := 5 },
    trace := [], err := [] }

/-! ## Basic facts about the operations -/

@[simp] theorem call_cfg (s : St) (c : Call) : (call s c).cfg = s.cfg := rfl
@[simp] theorem call_trace (s : St) (c : Call) : (call s c).trace = s.trace ++ [c] := rfl
@[simp] theorem call_err (s : St) (c : Call) : (call s c).err = s.err := rfl
@[simp] theorem log_cfg (s : St) (d : Diag) : (log s d).cfg = s.cfg := rfl
@[simp] theorem log_trace (s : St) (d : Diag) : (log s d).trace = s.trace := rfl
@[simp] theorem log_err (s : St) (d : Diag) : (log s d).err = s.err ++ [d] := rfl

theorem to_int_id (x : Int) (hlo : -2147483648 ≤ x) (hhi : x ≤ 2147483647) :
    to_int x = x := by
  unfold to_int; omega

theorem to_size_t_eq_iff (x : Int) (hlo : -9223372036854775808 ≤ x)
    (hhi : x ≤ 9223372036854775807) : to_size_t x = sizeof_info ↔ x = sizeof_info := by
  unfold to_size_t sizeof_info; omega

theorem tmod_ten_eq_zero_iff (x : Int) : Int.tmod x 10 = 0 ↔ x % 10 = 0 := by
  rw [← Int.dvd_iff_tmod_eq_zero]
  omega

@[simp] theorem do_stats_cfg (s : St) (w : Wake) : (do_stats s w).cfg = s.cfg := by
  unfold do_stats; split <;> [rfl; (simp only []; split <;> simp)]

theorem do_stats_trace (s : St) (w : Wake) :
    (do_stats s w).trace =
      s.trace ++ (if s.cfg.verbose ≠ 0 then [Call.pcap_stats s.cfg.pcap] else []) := by
  unfold do_stats
  by_cases hv : s.cfg.verbose = 0
  · simp [hv]
  · simp only [hv, if_false]
    split <;> simp

@[simp] theorem foldl_cb_cfg (l : List Nat) (s : St) : (l.foldl cb s).cfg = s.cfg := by
  induction l generalizing s with
  | nil => rfl
  | cons a l ih =>
    simp only [List.foldl_cons, ih]
    unfold cb; split <;> simp

@[simp] theorem foldl_cb_trace (l : List Nat) (s : St) : (l.foldl cb s).trace = s.trace := by
  induction l generalizing s with
  | nil => rfl
  | cons a l ih =>
    simp only [List.foldl_cons, ih]
    unfold cb; split <;> simp

/-! ## The signal handler -/

theorem handle_signal_alarm (s : St) (w : Wake)
    (hr : to_size_t w.read_ret = sizeof_info) (hsig : w.signo = SIGALRM) (hlo : -2147483648 ≤ s.cfg.ticks)
    (hhi : s.cfg.ticks < INT_MAX) :
    (handle_signal s w).1 = 0 ∧
    (handle_signal s w).2.cfg = { s.cfg with ticks := s.cfg.ticks + 1 } ∧
    (handle_signal s w).2.trace =
      s.trace ++ [Call.read s.cfg.signal_fd] ++
        (if s.cfg.verbose ≠ 0 ∧ (s.cfg.ticks + 1) % 10 = 0
          then [Call.pcap_stats s.cfg.pcap] else []) ++
        [Call.alarm 1] := by
  have ht : to_int (s.cfg.ticks + 1) = s.cfg.ticks + 1 := by
    apply to_int_id <;> (unfold INT_MAX at hhi; omega)
  unfold handle_signal
  simp only [hr, hsig, ne_eq, not_true_eq_false, if_false, if_true, periodic_work, call_cfg,
    ht, tmod_ten_eq_zero_iff]
  refine ⟨trivial, ?_, ?_⟩
  · split <;> simp
  · by_cases h10 : (s.cfg.ticks + 1) % 10 = 0
    · simp only [h10, if_true, and_true, call_trace, do_stats_trace, call_cfg]
    · simp [h10]

theorem handle_signal_not_alarm (s : St) (w : Wake) (hsig : w.signo ≠ SIGALRM) :
    (handle_signal s w).1 = -1 ∧ (handle_signal s w).2.cfg = s.cfg ∧
    (handle_signal s w).2.trace = s.trace ++ [Call.read s.cfg.signal_fd] := by
  unfold handle_signal
  simp only [hsig, if_false]
  split <;> simp

theorem handle_signal_short_read (s : St) (w : Wake)
    (hshort : to_size_t w.read_ret ≠ sizeof_info) :
    (handle_signal s w).1 = -1 ∧ (handle_signal s w).2.cfg = s.cfg ∧
    (handle_signal s w).2.trace = s.trace ++ [Call.read s.cfg.signal_fd] := by
  unfold handle_signal
  simp [hshort]

theorem get_pcap_data_trace (s : St) (w : Wake) :
    (get_pcap_data s w).2.cfg = s.cfg ∧
    (get_pcap_data s w).2.trace = s.trace ++ [Call.pcap_dispatch s.cfg.pcap 10000] ∧
    ((get_pcap_data s w).1 < 0 ↔ w.dispatch_ret < 0) := by
  unfold get_pcap_data
  simp only []
  split <;> simp [*]

theorem teardown_cfg (s : St) : (teardown s).cfg = s.cfg := by
  unfold teardown
  simp only []
  split <;> split <;> simp

theorem teardown_trace (s : St) : (teardown s).trace = s.trace ++ teardown_calls s.cfg := by
  unfold teardown teardown_calls
  by_cases hp : s.cfg.pcap = 0 <;> by_cases hf : s.cfg.pcap_fd > 0 <;> simp [hp, hf]

/-! ## One iteration of the loop -/

@[simp] theorem after_wait_cfg (s : St) (w : Wake) : (after_wait s w).cfg = s.cfg := by
  unfold after_wait; simp only []; split <;> simp

@[simp] theorem after_wait_trace (s : St) (w : Wake) :
    (after_wait s w).trace = s.trace ++ [Call.epoll_wait s.cfg.epoll_fd] := by
  unfold after_wait; simp only []; split <;> simp

theorem main_loop_nil (s : St) :
    main_loop s [] = (LoopEnd.blocked, call s (Call.epoll_wait s.cfg.epoll_fd)) := rfl

theorem main_loop_nonpos (s : St) (w : Wake) (rest : List Wake) (hn : w.n ≤ 0) :
    main_loop s (w :: rest) = (LoopEnd.done, call s (Call.epoll_wait s.cfg.epoll_fd)) := by
  have h : ¬ (w.n > 0) := by omega
  simp [main_loop, h]

theorem main_loop_signal (s : St) (w : Wake) (rest : List Wake) (hn : 0 < w.n)
    (hfd : w.fd = s.cfg.signal_fd) :
    main_loop s (w :: rest) =
      if (handle_signal (after_wait s w) w).1 < 0
        then (LoopEnd.done, (handle_signal (after_wait s w) w).2)
        else main_loop (handle_signal (after_wait s w) w).2 rest := by
  have h : w.n > 0 := hn
  rw [main_loop]
  simp only [h, if_true]
  have hfd2 : w.fd = (after_wait s w).cfg.signal_fd := by simpa using hfd
  unfold after_wait at hfd2 ⊢
  simp only [] at hfd2 ⊢
  rw [if_pos hfd2]

theorem main_loop_pcap (s : St) (w : Wake) (rest : List Wake) (hn : 0 < w.n)
    (hsf : w.fd ≠ s.cfg.signal_fd) (hfd : w.fd = s.cfg.pcap_fd) :
    main_loop s (w :: rest) =
      if (get_pcap_data (after_wait s w) w).1 < 0
        then (LoopEnd.done, (get_pcap_data (after_wait s w) w).2)
        else main_loop (get_pcap_data (after_wait s w) w).2 rest := by
  have h : w.n > 0 := hn
  rw [main_loop]
  simp only [h, if_true]
  have hsf2 : ¬ w.fd = (after_wait s w).cfg.signal_fd := by simpa using hsf
  have hfd2 : w.fd = (after_wait s w).cfg.pcap_fd := by simpa using hfd
  unfold after_wait at hsf2 hfd2 ⊢
  simp only [] at hsf2 hfd2 ⊢
  rw [if_neg hsf2, if_pos hfd2]

theorem main_loop_other (s : St) (w : Wake) (rest : List Wake) (hn : 0 < w.n)
    (hsf : w.fd ≠ s.cfg.signal_fd) (hfd : w.fd ≠ s.cfg.pcap_fd) :
    main_loop s (w :: rest) = main_loop (after_wait s w) rest := by
  have h : w.n > 0 := hn
  rw [main_loop]
  simp only [h, if_true]
  have hsf2 : ¬ w.fd = (after_wait s w).cfg.signal_fd := by simpa using hsf
  have hfd2 : ¬ w.fd = (after_wait s w).cfg.pcap_fd := by simpa using hfd
  unfold after_wait at hsf2 hfd2 ⊢
  simp only [] at hsf2 hfd2 ⊢
  rw [if_neg hsf2, if_neg hfd2]

theorem serve_done (s s1 : St) (ws : List Wake) (h : main_loop s ws = (LoopEnd.done, s1)) :
    serve s ws = (Outcome.exited 0, teardown s1) := by
  unfold serve; rw [h]

theorem serve_blocked (s s1 : St) (ws : List Wake)
    (h : main_loop s ws = (LoopEnd.blocked, s1)) :
    serve s ws = (Outcome.blocked, s1) := by
  unfold serve; rw [h]

/-- A handler error on the signal descriptor ends the loop and runs the code
at `done` once. -/
theorem serve_signal_error (s : St) (w : Wake) (rest : List Wake) (hn : 0 < w.n)
    (hfd : w.fd = s.cfg.signal_fd)
    (hbad : to_size_t w.read_ret ≠ sizeof_info ∨ w.signo ≠ SIGALRM) :
    (∀ t : St, (handle_signal t w).1 = -1) ∧
    serve s (w :: rest) = (Outcome.exited 0, teardown (handle_signal (after_wait s w) w).2) ∧
    (serve s (w :: rest)).2.trace =
      s.trace ++ [Call.epoll_wait s.cfg.epoll_fd, Call.read s.cfg.signal_fd] ++
        teardown_calls s.cfg := by
  have hall : ∀ t : St, (handle_signal t w).1 = -1 ∧ (handle_signal t w).2.cfg = t.cfg ∧
      (handle_signal t w).2.trace = t.trace ++ [Call.read t.cfg.signal_fd] := by
    intro t
    rcases hbad with hb | hb
    · exact handle_signal_short_read t w hb
    · exact handle_signal_not_alarm t w hb
  have hloop : main_loop s (w :: rest) =
      (LoopEnd.done, (handle_signal (after_wait s w) w).2) := by
    rw [main_loop_signal s w rest hn hfd, (hall _).1]
    simp
  have hs := serve_done _ _ _ hloop
  refine ⟨fun t => (hall t).1, hs, ?_⟩
  rw [hs]
  simp only [teardown_trace, (hall _).2.1, (hall _).2.2, after_wait_cfg, after_wait_trace]
  simp

/-! ## Shutdown on a signal other than the alarm -/

/-- C1. In any running state, when `epoll_wait` reports the signal descriptor
and a full record is read whose signal is one of the accepted signals other
than `SIGALRM`, `handle_signal` returns the error value -1, the loop is left,
`main` returns, and the calls made from that wait onwards are exactly: the
wait, the read, and the calls of the code at `done` (once). The remaining
answers of the environment are never consulted: no further wait, read or
dispatch is made. -/
theorem nonalarm_signal_stops_loop (s : St) (w : Wake) (rest : List Wake)
    (hn : 0 < w.n) (hfd : w.fd = s.cfg.signal_fd) (hfull : w.read_ret = sizeof_info)
    (hacc : w.signo ∈ sigs) (hna : w.signo ≠ SIGALRM) :
    (∀ t : St, (handle_signal t w).1 = -1) ∧
    (main_loop s (w :: rest)).1 = LoopEnd.done ∧
    (serve s (w :: rest)).1 = Outcome.exited 0 ∧
    (serve s (w :: rest)).2.trace =
      s.trace ++ [Call.epoll_wait s.cfg.epoll_fd, Call.read s.cfg.signal_fd] ++
        teardown_calls s.cfg ∧
    (teardown_calls s.cfg).countP is_pcap_close ≤ 1 ∧
    (teardown_calls s.cfg).countP is_close ≤ 1 ∧
    (∀ c ∈ teardown_calls s.cfg, c ≠ Call.epoll_wait s.cfg.epoll_fd ∧
      c ≠ Call.read s.cfg.signal_fd ∧ c ≠ Call.pcap_dispatch s.cfg.pcap 10000) ∧
    serve s (w :: rest) = serve s [w] := by
  have _hacc := hacc
  have _hfull := hfull
  have h1 := serve_signal_error s w rest hn hfd (Or.inr hna)
  have h2 := serve_signal_error s w [] hn hfd (Or.inr hna)
  have hl : main_loop s (w :: rest) =
      (LoopEnd.done, (handle_signal (after_wait s w) w).2) := by
    rw [main_loop_signal s w rest hn hfd, h1.1]
    simp
  refine ⟨h1.1, by rw [hl], by rw [h1.2.1], h1.2.2, ?_, ?_, ?_, by rw [h1.2.1, h2.2.1]⟩
  · unfold teardown_calls
    split <;> split <;> simp [is_pcap_close]
  · unfold teardown_calls
    split <;> split <;> simp [is_close]
  · intro c hc
    unfold teardown_calls at hc
    simp only [List.mem_append] at hc
    rcases hc with hc | hc
    · split at hc
      · simp only [List.mem_singleton] at hc; subst hc; simp
      · simp at hc
    · split at hc
      · simp only [List.mem_singleton] at hc; subst hc; simp
      · simp at hc

/-- Witness for C1: `SIGINT` delivered to the running example state. -/
theorem nonalarm_signal_stops_loop_witness :
    (serve st_running [wake_signal 3 SIGINT, wake_signal 3 SIGALRM]).1 = Outcome.exited 0 ∧
    (serve st_running [wake_signal 3 SIGINT, wake_signal 3 SIGALRM]).2.trace =
      [] ++ [Call.epoll_wait 4, Call.read 3] ++ teardown_calls st_running.cfg :=
  ⟨(nonalarm_signal_stops_loop st_running (wake_signal 3 SIGINT) [wake_signal 3 SIGALRM]
      (by decide) (by decide) (by decide) (by decide) (by decide)).2.2.1,
   (nonalarm_signal_stops_loop st_running (wake_signal 3 SIGINT) [wake_signal 3 SIGALRM]
      (by decide) (by decide) (by decide) (by decide) (by decide)).2.2.2.1⟩

/-! ## The alarm tick -/

/-- C7. In any state whose tick counter is below `INT_MAX`, handling one
`SIGALRM` record returns 0, adds exactly 1 to `cfg.ticks`, leaves every other
member of `cfg` unchanged, and calls `alarm(1)` exactly once, as the last
call; this is so whether or not the statistics query is due on that tick. -/
theorem alarm_tick_increments_and_rearms (s : St) (w : Wake)
    (hfull : w.read_ret = sizeof_info) (hsig : w.signo = SIGALRM)
    (hlo : -2147483648 ≤ s.cfg.ticks) (hhi : s.cfg.ticks < INT_MAX) :
    (handle_signal s w).1 = 0 ∧
    (handle_signal s w).2.cfg = { s.cfg with ticks := s.cfg.ticks + 1 } ∧
    (handle_signal s w).2.trace =
      s.trace ++ [Call.read s.cfg.signal_fd] ++
        (if s.cfg.verbose ≠ 0 ∧ (s.cfg.ticks + 1) % 10 = 0
          then [Call.pcap_stats s.cfg.pcap] else []) ++
        [Call.alarm 1] ∧
    (handle_signal s w).2.trace.countP is_alarm = s.trace.countP is_alarm + 1 ∧
    (∀ rest, 0 < w.n → w.fd = s.cfg.signal_fd →
      main_loop s (w :: rest) = main_loop (handle_signal (after_wait s w) w).2 rest) := by
  have h := handle_signal_alarm s w (by rw [hfull]; rfl) hsig hlo hhi
  refine ⟨h.1, h.2.1, h.2.2, ?_, ?_⟩
  · rw [h.2.2]
    simp only [List.countP_append]
    split <;> simp [is_alarm, List.countP_cons]
  · intro rest hn hfd
    have h2 := handle_signal_alarm (after_wait s w) w (by rw [hfull]; rfl) hsig
      (by simpa using hlo)
      (by simpa using hhi)
    rw [main_loop_signal s w rest hn hfd, h2.1]
    simp

/-- Witness for C7: the tenth tick at verbosity 1, where the query is due. -/
theorem alarm_tick_increments_and_rearms_witness :
    (handle_signal { st_running with cfg := { st_running.cfg with ticks := 9 } }
      (wake_signal 3 SIGALRM)).2.trace =
      [] ++ [Call.read 3] ++ [Call.pcap_stats 7] ++ [Call.alarm 1] :=
  (alarm_tick_increments_and_rearms
    { st_running with cfg := { st_running.cfg with ticks := 9 } } (wake_signal 3 SIGALRM)
    (by decide) (by decide) (by decide) (by decide)).2.2.1

/-! ## Which handler failures end the loop -/

/-- C8. In any running state: (1) a read of the signal record that does not
return the full record makes `handle_signal` return -1, the loop ends and the
code at `done` runs; (2) a negative result of `pcap_dispatch` makes
`get_pcap_data` return -1, the loop ends and the code at `done` runs; (3) a
failed `pcap_stats` on an alarm tick on which the query is due is logged,
`handle_signal` still returns 0 after calling `alarm(1)`, and the loop goes on
with the next wait. -/
theorem only_stats_failure_is_survivable (s : St) (w : Wake) (rest : List Wake)
    (hn : 0 < w.n) :
    (w.fd = s.cfg.signal_fd → to_size_t w.read_ret ≠ sizeof_info →
      (handle_signal (after_wait s w) w).1 = -1 ∧
      (serve s (w :: rest)).1 = Outcome.exited 0 ∧
      (serve s (w :: rest)).2.trace =
        s.trace ++ [Call.epoll_wait s.cfg.epoll_fd, Call.read s.cfg.signal_fd] ++
          teardown_calls s.cfg) ∧
    (w.fd ≠ s.cfg.signal_fd → w.fd = s.cfg.pcap_fd → w.dispatch_ret < 0 →
      (get_pcap_data (after_wait s w) w).1 = -1 ∧
      (serve s (w :: rest)).1 = Outcome.exited 0 ∧
      (serve s (w :: rest)).2.trace =
        s.trace ++ [Call.epoll_wait s.cfg.epoll_fd, Call.pcap_dispatch s.cfg.pcap 10000] ++
          teardown_calls s.cfg) ∧
    (w.fd = s.cfg.signal_fd → w.read_ret = sizeof_info → w.signo = SIGALRM →
      -2147483648 ≤ s.cfg.ticks → s.cfg.ticks < INT_MAX →
      s.cfg.verbose ≠ 0 → (s.cfg.ticks + 1) % 10 = 0 → w.stats_ret < 0 →
      (handle_signal (after_wait s w) w).1 = 0 ∧
      (handle_signal (after_wait s w) w).2.trace =
        s.trace ++ [Call.epoll_wait s.cfg.epoll_fd, Call.read s.cfg.signal_fd,
          Call.pcap_stats s.cfg.pcap, Call.alarm 1] ∧
      (handle_signal (after_wait s w) w).2.err =
        (after_wait s w).err ++ [Diag.pcap_stat_error] ∧
      main_loop s (w :: rest) = main_loop (handle_signal (after_wait s w) w).2 rest ∧
      serve s (w :: rest) = serve (handle_signal (after_wait s w) w).2 rest ∧
      (serve s [w]).1 = Outcome.blocked) := by
  refine ⟨?_, ?_, ?_⟩
  · intro hfd hshort
    have h := serve_signal_error s w rest hn hfd (Or.inl hshort)
    exact ⟨h.1 _, by rw [h.2.1], h.2.2⟩
  · intro hsf hfd hneg
    have hg := get_pcap_data_trace (after_wait s w) w
    have hlt : (get_pcap_data (after_wait s w) w).1 < 0 := hg.2.2.mpr hneg
    have hl : main_loop s (w :: rest) = (LoopEnd.done, (get_pcap_data (after_wait s w) w).2) := by
      rw [main_loop_pcap s w rest hn hsf hfd, if_pos hlt]
    have hs := serve_done _ _ _ hl
    refine ⟨?_, by rw [hs], ?_⟩
    · unfold get_pcap_data
      simp [hneg]
    · rw [hs, teardown_trace, hg.1, hg.2.1]
      simp
  · intro hfd hfull hsig hlo hhi hv h10 hfail
    have ha := handle_signal_alarm (after_wait s w) w (by rw [hfull]; rfl) hsig
      (by simpa using hlo)
      (by simpa using hhi)
    have hl : main_loop s (w :: rest) = main_loop (handle_signal (after_wait s w) w).2 rest := by
      rw [main_loop_signal s w rest hn hfd, ha.1]; simp
    have hl1 : main_loop s [w] = main_loop (handle_signal (after_wait s w) w).2 [] := by
      rw [main_loop_signal s w [] hn hfd, ha.1]; simp
    refine ⟨ha.1, ?_, ?_, hl, ?_, ?_⟩
    · rw [ha.2.2]
      simp [hv, h10]
    · have hr : to_size_t w.read_ret = sizeof_info := by rw [hfull]; rfl
      have ht : to_int (s.cfg.ticks + 1) = s.cfg.ticks + 1 := by
        apply to_int_id <;> (unfold INT_MAX at hhi; omega)
      have ht10 : Int.tmod (s.cfg.ticks + 1) 10 = 0 := (tmod_ten_eq_zero_iff _).mpr h10
      unfold handle_signal
      simp only [hr, hsig, ne_eq, not_true_eq_false, if_false, if_true, periodic_work,
        call_cfg, after_wait_cfg, ht, ht10, call_err]
      unfold do_stats
      simp [hv, hfail]
    · unfold serve; rw [hl]
    · unfold serve; rw [hl1, main_loop_nil]

/-- Witness for C8: a short read, a failed dispatch, and a failed statistics
query on the tenth tick, each in the running example state. -/
theorem only_stats_failure_is_survivable_witness :
    (serve st_running [{ wake_signal 3 SIGALRM with read_ret := -1 }]).1 = Outcome.exited 0 ∧
    (serve st_running [wake_pcap 5 (-1)]).1 = Outcome.exited 0 ∧
    (serve { st_running with cfg := { st_running.cfg with ticks := 9 } }
      [{ wake_signal 3 SIGALRM with stats_ret := -1 }]).1 = Outcome.blocked :=
  ⟨((only_stats_failure_is_survivable st_running
        { wake_signal 3 SIGALRM with read_ret := -1 } [] (by decide)).1
      (by decide) (by decide)).2.1,
   ((only_stats_failure_is_survivable st_running (wake_pcap 5 (-1)) [] (by decide)).2.1
      (by decide) (by decide) (by decide)).2.1,
   ((only_stats_failure_is_survivable
        { st_running with cfg := { st_running.cfg with ticks := 9 } }
        { wake_signal 3 SIGALRM with stats_ret := -1 } [] (by decide)).2.2
      (by decide) (by decide) (by decide) (by decide) (by decide) (by decide) (by decide)
      (by decide)).2.2.2.2.2⟩

/-! ## A non-positive return of `epoll_wait` -/

/-- C5, counterexample. In the running example state `epoll_wait` returns -1
with `errno = EINTR`, and one more event is available afterwards. The loop
does not wait again: `main` returns 0 after a single `epoll_wait`, having
closed the capture session and its descriptor. -/
theorem eintr_ends_loop_counterexample :
    serve st_running [wake_eintr, wake_signal 3 SIGALRM] =
      (Outcome.exited 0,
        { st_running with
          trace := [Call.epoll_wait 4, Call.pcap_close 7, Call.close 5] }) ∧
    (serve st_running [wake_eintr, wake_signal 3 SIGALRM]).1 ≠ Outcome.blocked ∧
    (serve st_running [wake_eintr, wake_signal 3 SIGALRM]).2.trace.countP is_epoll_wait = 1 ∧
    (serve st_running [wake_eintr, wake_signal 3 SIGALRM]).2.trace.countP is_pcap_close = 1 := by
  decide

/-- C5, amended. In any running state, when `epoll_wait` returns a negative
value with `errno = EINTR`, no handler is invoked, the loop is left, the code
at `done` runs once and `main` returns 0; `epoll_wait` is not called again. -/
theorem eintr_ends_loop (s : St) (w : Wake) (rest : List Wake)
    (hn : w.n < 0) (herr : w.errno = EINTR) :
    (main_loop s (w :: rest)).1 = LoopEnd.done ∧
    serve s (w :: rest) =
      (Outcome.exited 0, teardown (call s (Call.epoll_wait s.cfg.epoll_fd))) ∧
    (serve s (w :: rest)).2.trace =
      s.trace ++ [Call.epoll_wait s.cfg.epoll_fd] ++ teardown_calls s.cfg ∧
    (serve s (w :: rest)).2.cfg = s.cfg ∧
    (serve s (w :: rest)).2.err = s.err := by
  have _herr := herr
  have hl := main_loop_nonpos s w rest (by omega)
  have hs := serve_done _ _ _ hl
  refine ⟨by rw [hl], hs, ?_, ?_, ?_⟩
  · rw [hs, teardown_trace]; simp
  · rw [hs, teardown_cfg]; simp
  · rw [hs]; unfold teardown; simp only []; split <;> split <;> simp

/-- Witness for the amended C5. -/
theorem eintr_ends_loop_witness :
    (serve st_running [wake_eintr, wake_signal 3 SIGALRM]).2.trace =
      [] ++ [Call.epoll_wait 4] ++ teardown_calls st_running.cfg :=
  (eintr_ends_loop st_running wake_eintr [wake_signal 3 SIGALRM]
    (by decide) (by decide)).2.2.1

/-! ## The option loop and start-up -/

theorem getopt_loop_frame (opts : List Opt) :
    ∀ s : St, (getopt_loop s opts).2.trace = s.trace ∧
      (getopt_loop s opts).2.cfg.pcap = s.cfg.pcap ∧
      (getopt_loop s opts).2.cfg.pcap_fd = s.cfg.pcap_fd ∧
      (getopt_loop s opts).2.cfg.ticks = s.cfg.ticks ∧
      (getopt_loop s opts).2.cfg.snaplen = s.cfg.snaplen := by
  induction opts with
  | nil => intro s; simp [getopt_loop]
  | cons o opts ih =>
    intro s
    cases o <;> simp only [getopt_loop] <;> first
      | exact ih _
      | simp [usage]

theorem getopt_loop_no_usage (opts : List Opt) :
    ∀ s : St, no_usage opts →
      (getopt_loop s opts).1 = false ∧
      (getopt_loop s opts).2.cfg.filter = opt_filter opts s.cfg.filter ∧
      (getopt_loop s opts).2.cfg.dev = opt_dev opts s.cfg.dev := by
  induction opts with
  | nil => intro s _; simp [getopt_loop, opt_filter, opt_dev]
  | cons o opts ih =>
    intro s hno
    have hrest : no_usage opts := fun o1 h1 => hno o1 (List.mem_cons_of_mem _ h1)
    have ho := hno o (List.mem_cons_self _ _)
    cases o with
    | v => simpa [getopt_loop, opt_filter, opt_dev] using ih _ hrest
    | f a => simpa [getopt_loop, opt_filter, opt_dev] using ih _ hrest
    | i a => simpa [getopt_loop, opt_filter, opt_dev] using ih _ hrest
    | h => exact absurd rfl ho.1
    | unknown => exact absurd rfl ho.2

theorem getopt_loop_usage (opts : List Opt) :
    ∀ s : St, ¬ no_usage opts → (getopt_loop s opts).1 = true := by
  induction opts with
  | nil => intro s h; exact absurd (fun o ho => by simp at ho) h
  | cons o opts ih =>
    intro s hno
    cases o with
    | h => simp [getopt_loop]
    | unknown => simp [getopt_loop]
    | v =>
      simp only [getopt_loop]
      apply ih
      intro hrest
      apply hno
      intro o1 h1
      rcases List.mem_cons.mp h1 with h2 | h2
      · subst h2; simp
      · exact hrest o1 h2
    | f a =>
      simp only [getopt_loop]
      apply ih
      intro hrest
      apply hno
      intro o1 h1
      rcases List.mem_cons.mp h1 with h2 | h2
      · subst h2; simp
      · exact hrest o1 h2
    | i a =>
      simp only [getopt_loop]
      apply ih
      intro hrest
      apply hno
      intro o1 h1
      rcases List.mem_cons.mp h1 with h2 | h2
      · subst h2; simp
      · exact hrest o1 h2

theorem sigs_mask : sigs.foldl sigaddset [] = [SIGHUP, SIGTERM, SIGINT, SIGQUIT, SIGALRM] := by
  decide

theorem set_filter_cfg (s : St) (env : Env) : (set_filter s env).2.cfg = s.cfg := by
  unfold set_filter
  split
  · rfl
  · simp only []
    split
    · simp
    · split <;> simp

theorem new_epoll_cfg (s : St) (ev : Nat) (fd ret : Int) :
    (new_epoll s ev fd ret).2.cfg = s.cfg := by
  unfold new_epoll
  simp only []
  split <;> split <;> simp

theorem new_epoll_trace (s : St) (ev : Nat) (fd ret : Int) :
    (new_epoll s ev fd ret).2.trace = s.trace ++ [Call.epoll_ctl_add s.cfg.epoll_fd ev fd] := by
  unfold new_epoll
  simp only []
  split <;> split <;> simp

theorem new_epoll_ret (s : St) (ev : Nat) (fd ret : Int) :
    (new_epoll s ev fd ret).1 = ret := by
  unfold new_epoll
  simp only []
  split <;> rfl

theorem set_filter_trace (s : St) (env : Env) :
    (set_filter s env).2.trace = s.trace ++ filter_calls s.cfg env s.cfg.pcap := by
  unfold set_filter filter_calls
  split
  · rename_i h; simp [h]
  · rename_i flt h
    simp only [h]
    by_cases hc : env.compile_ret = 0
    · simp only [hc, ne_eq, not_true_eq_false, if_false]
      split <;> simp
    · simp [hc]

/-- Start-up reaches the loop exactly when none of the examined calls fails;
the state it then leaves is described in full. -/
theorem startup_reaches_loop (s : St) (env : Env) (hok : startup_ok env) :
    (startup s env).1 = true ∧
    (startup s env).2.cfg =
      { s.cfg with signal_fd := env.signalfd_ret, epoll_fd := env.epoll_create_ret,
                   pcap := env.pcap_open_ret, pcap_fd := env.selectable_fd } ∧
    (startup s env).2.trace =
      s.trace ++
        [Call.sigprocmask_all,
         Call.signalfd (-1) [SIGHUP, SIGTERM, SIGINT, SIGQUIT, SIGALRM],
         Call.epoll_create 1,
         Call.epoll_ctl_add env.epoll_create_ret EPOLLIN env.signalfd_ret,
         Call.pcap_open_live s.cfg.dev s.cfg.snaplen 1 0,
         Call.pcap_get_selectable_fd env.pcap_open_ret] ++
        filter_calls s.cfg env env.pcap_open_ret ++
        [Call.epoll_ctl_add env.epoll_create_ret EPOLLIN env.selectable_fd, Call.alarm 1] := by
  obtain ⟨h1, h2, h3, h4, h5⟩ := hok
  unfold startup
  simp only [sigs_mask, call_cfg, h1, h2, h3, h4, h5, new_epoll_ret, new_epoll_cfg,
    new_epoll_trace, set_filter_cfg, set_filter_trace, call_trace, ne_eq, not_true_eq_false,
    if_false, not_false_eq_true, if_true]
  refine ⟨trivial, trivial, ?_⟩
  simp [filter_calls]

theorem startup_gives_up (s : St) (env : Env) (hbad : ¬ startup_ok env) :
    (startup s env).1 = false := by
  unfold startup_ok at hbad
  unfold startup
  simp only [sigs_mask, call_cfg, new_epoll_ret, new_epoll_cfg, set_filter_cfg]
  split_ifs <;> first | rfl | (exfalso; apply hbad; simp_all)

/-! ## What the loop leaves untouched -/

theorem same_but_ticks_refl (c : Cfg) : same_but_ticks c c := rfl

theorem same_but_ticks_trans (c d e : Cfg) (h1 : same_but_ticks c d)
    (h2 : same_but_ticks d e) : same_but_ticks c e := by
  unfold same_but_ticks at *
  rw [h2, h1]

theorem handle_signal_frame (s : St) (w : Wake) :
    same_but_ticks s.cfg (handle_signal s w).2.cfg ∧
    ∃ l, (handle_signal s w).2.trace = s.trace ++ l ∧ l.all is_loop_call = true := by
  by_cases hr : to_size_t w.read_ret = sizeof_info
  · by_cases hsig : w.signo = SIGALRM
    · unfold handle_signal
      simp only [hr, hsig, ne_eq, not_true_eq_false, if_false, if_true, periodic_work,
        call_cfg]
      split
      · refine ⟨by simp [same_but_ticks], ?_⟩
        simp only [call_trace, do_stats_trace, call_cfg, List.append_assoc]
        refine ⟨_, rfl, ?_⟩
        split <;> simp [is_loop_call]
      · refine ⟨by simp [same_but_ticks], ?_⟩
        simp only [call_trace, call_cfg, List.append_assoc]
        exact ⟨_, rfl, by simp [is_loop_call]⟩
    · have h := handle_signal_not_alarm s w hsig
      exact ⟨by rw [h.2.1]; rfl, _, h.2.2, by simp [is_loop_call]⟩
  · have h := handle_signal_short_read s w hr
    exact ⟨by rw [h.2.1]; rfl, _, h.2.2, by simp [is_loop_call]⟩

theorem main_loop_frame (ws : List Wake) :
    ∀ s : St, same_but_ticks s.cfg (main_loop s ws).2.cfg ∧
      ∃ l, (main_loop s ws).2.trace = s.trace ++ Call.epoll_wait s.cfg.epoll_fd :: l ∧
        l.all is_loop_call = true := by
  induction ws with
  | nil =>
    intro s
    rw [main_loop_nil]
    exact ⟨rfl, [], by simp, by simp⟩
  | cons w ws ih =>
    intro s
    by_cases hn : 0 < w.n
    · by_cases hfd : w.fd = s.cfg.signal_fd
      · rw [main_loop_signal s w ws hn hfd]
        obtain ⟨hc, l, hl, hlc⟩ := handle_signal_frame (after_wait s w) w
        rw [after_wait_cfg] at hc
        rw [after_wait_trace] at hl
        split
        · exact ⟨hc, l, by rw [hl]; simp, hlc⟩
        · obtain ⟨hc2, l2, hl2, hlc2⟩ := ih (handle_signal (after_wait s w) w).2
          refine ⟨same_but_ticks_trans _ _ _ hc hc2, l ++ Call.epoll_wait
            (handle_signal (after_wait s w) w).2.cfg.epoll_fd :: l2, ?_, ?_⟩
          · rw [hl2, hl]; simp
          · rw [List.all_append, hlc, List.all_cons, hlc2]; rfl
      · by_cases hpf : w.fd = s.cfg.pcap_fd
        · rw [main_loop_pcap s w ws hn hfd hpf]
          have hg := get_pcap_data_trace (after_wait s w) w
          rw [after_wait_cfg, after_wait_trace] at hg
          have hc : same_but_ticks s.cfg (get_pcap_data (after_wait s w) w).2.cfg := by
            rw [hg.1]; rfl
          split
          · exact ⟨hc, [Call.pcap_dispatch s.cfg.pcap 10000], by rw [hg.2.1]; simp, rfl⟩
          · obtain ⟨hc2, l2, hl2, hlc2⟩ := ih (get_pcap_data (after_wait s w) w).2
            refine ⟨same_but_ticks_trans _ _ _ hc hc2, Call.pcap_dispatch s.cfg.pcap 10000 ::
              Call.epoll_wait (get_pcap_data (after_wait s w) w).2.cfg.epoll_fd :: l2, ?_, ?_⟩
            · rw [hl2, hg.2.1]; simp
            · rw [List.all_cons, List.all_cons, hlc2]; rfl
        · rw [main_loop_other s w ws hn hfd hpf]
          obtain ⟨hc2, l2, hl2, hlc2⟩ := ih (after_wait s w)
          rw [after_wait_cfg] at hc2
          rw [after_wait_trace, after_wait_cfg] at hl2
          refine ⟨hc2, Call.epoll_wait s.cfg.epoll_fd :: l2, by rw [hl2]; simp, ?_⟩
          rw [List.all_cons, hlc2]; rfl
    · rw [main_loop_nonpos s w ws (by omega)]
      exact ⟨rfl, [], by simp, by simp⟩

/-! ## Alarms in an arbitrary run of the loop -/

theorem stats_count_append (a b : List Call) :
    stats_count (a ++ b) = stats_count a + stats_count b := by
  unfold stats_count; simp

theorem stats_count_teardown_calls (c : Cfg) : stats_count (teardown_calls c) = 0 := by
  unfold stats_count teardown_calls
  split <;> split <;> simp [List.countP_cons, is_pcap_stats]

theorem alarms_handled_nonpos (sfd pfd : Int) (w : Wake) (ws : List Wake) (hn : ¬ w.n > 0) :
    alarms_handled sfd pfd (w :: ws) = 0 := by
  rw [alarms_handled, if_neg hn]

theorem alarms_handled_alarm (sfd pfd : Int) (w : Wake) (ws : List Wake) (hn : w.n > 0)
    (hfd : w.fd = sfd) (hal : to_size_t w.read_ret = sizeof_info ∧ w.signo = SIGALRM) :
    alarms_handled sfd pfd (w :: ws) = alarms_handled sfd pfd ws + 1 := by
  rw [alarms_handled, if_pos hn, if_pos hfd, if_pos hal]

theorem alarms_handled_signal_error (sfd pfd : Int) (w : Wake) (ws : List Wake) (hn : w.n > 0)
    (hfd : w.fd = sfd) (hal : ¬ (to_size_t w.read_ret = sizeof_info ∧ w.signo = SIGALRM)) :
    alarms_handled sfd pfd (w :: ws) = 0 := by
  rw [alarms_handled, if_pos hn, if_pos hfd, if_neg hal]

theorem alarms_handled_dispatch_error (sfd pfd : Int) (w : Wake) (ws : List Wake) (hn : w.n > 0)
    (hfd : ¬ w.fd = sfd) (hpf : w.fd = pfd) (hneg : w.dispatch_ret < 0) :
    alarms_handled sfd pfd (w :: ws) = 0 := by
  rw [alarms_handled, if_pos hn, if_neg hfd, if_pos hpf, if_pos hneg]

theorem alarms_handled_dispatch (sfd pfd : Int) (w : Wake) (ws : List Wake) (hn : w.n > 0)
    (hfd : ¬ w.fd = sfd) (hpf : w.fd = pfd) (hneg : ¬ w.dispatch_ret < 0) :
    alarms_handled sfd pfd (w :: ws) = alarms_handled sfd pfd ws := by
  rw [alarms_handled, if_pos hn, if_neg hfd, if_pos hpf, if_neg hneg]

theorem alarms_handled_other (sfd pfd : Int) (w : Wake) (ws : List Wake) (hn : w.n > 0)
    (hfd : ¬ w.fd = sfd) (hpf : ¬ w.fd = pfd) :
    alarms_handled sfd pfd (w :: ws) = alarms_handled sfd pfd ws := by
  rw [alarms_handled, if_pos hn, if_neg hfd, if_neg hpf]

theorem handle_signal_ret (s : St) (w : Wake) :
    (handle_signal s w).1 =
      if to_size_t w.read_ret = sizeof_info ∧ w.signo = SIGALRM then 0 else -1 := by
  unfold handle_signal
  by_cases hr : to_size_t w.read_ret = sizeof_info
  · by_cases hsig : w.signo = SIGALRM
    · simp [hr, hsig]
    · simp [hr, hsig]
  · simp [hr]

/-- The tick counter and the number of statistics queries after the loop has
run on an arbitrary script, whichever way the loop ends. -/
theorem main_loop_counts (ws : List Wake) :
    ∀ (s : St) (t : Nat), s.cfg.ticks = (t : Int) →
      (t : Int) + (alarms_handled s.cfg.signal_fd s.cfg.pcap_fd ws : Nat) ≤ INT_MAX →
      (main_loop s ws).2.cfg =
        { s.cfg with
          ticks := (t : Int) + (alarms_handled s.cfg.signal_fd s.cfg.pcap_fd ws : Nat) } ∧
      stats_count (main_loop s ws).2.trace =
        stats_count s.trace +
          (if s.cfg.verbose = 0 then 0
           else (t + alarms_handled s.cfg.signal_fd s.cfg.pcap_fd ws) / 10 - t / 10) := by
  induction ws with
  | nil =>
    intro s t ht _
    rw [main_loop_nil]
    refine ⟨?_, ?_⟩
    · simp [alarms_handled, ← ht]
    · simp [alarms_handled, stats_count, List.countP_cons, is_pcap_stats]
  | cons w ws ih =>
    intro s t ht hmax
    by_cases hn : 0 < w.n
    · have hn2 : w.n > 0 := hn
      by_cases hfd : w.fd = s.cfg.signal_fd
      · by_cases hal : to_size_t w.read_ret = sizeof_info ∧ w.signo = SIGALRM
        · have hk : alarms_handled s.cfg.signal_fd s.cfg.pcap_fd (w :: ws) =
              alarms_handled s.cfg.signal_fd s.cfg.pcap_fd ws + 1 :=
            alarms_handled_alarm _ _ w ws hn2 hfd hal
          rw [hk] at hmax ⊢
          have hmax2 : (t : Int) + (alarms_handled s.cfg.signal_fd s.cfg.pcap_fd ws : Nat) + 1
              ≤ INT_MAX := by push_cast at hmax; omega
          have ha := handle_signal_alarm (after_wait s w) w hal.1 hal.2
            (by simp only [after_wait_cfg]; omega)
            (by simp only [after_wait_cfg]; unfold INT_MAX at hmax2 ⊢; omega)
          have hl : main_loop s (w :: ws) =
              main_loop (handle_signal (after_wait s w) w).2 ws := by
            rw [main_loop_signal s w ws hn hfd, ha.1]; simp
          have hcfg : (handle_signal (after_wait s w) w).2.cfg =
              { s.cfg with ticks := ((t + 1 : Nat) : Int) } := by
            rw [ha.2.1]; simp [ht]
          have hst : stats_count (handle_signal (after_wait s w) w).2.trace =
              stats_count s.trace +
                (if s.cfg.verbose ≠ 0 ∧ (t + 1) % 10 = 0 then 1 else 0) := by
            rw [ha.2.2]
            simp only [after_wait_cfg, after_wait_trace, ht, stats_count_append]
            have h10 : ((t : Int) + 1) % 10 = 0 ↔ (t + 1) % 10 = 0 := by omega
            simp only [h10]
            split <;> simp [stats_count, List.countP_cons, is_pcap_stats]
          have hih := ih (handle_signal (after_wait s w) w).2 (t + 1) (by rw [hcfg])
            (by rw [hcfg]; push_cast; omega)
          rw [hl]
          rw [hcfg] at hih
          refine ⟨?_, ?_⟩
          · rw [hih.1]
            simp only [Nat.cast_add, Nat.cast_one]
            congr 1
            omega
          · rw [hih.2, hst]
            by_cases hv : s.cfg.verbose = 0
            · simp [hv]
            · simp only [hv, if_false, ne_eq, not_false_eq_true, true_and]
              split <;> omega
        · have hk : alarms_handled s.cfg.signal_fd s.cfg.pcap_fd (w :: ws) = 0 :=
            alarms_handled_signal_error _ _ w ws hn2 hfd hal
          have hbad : to_size_t w.read_ret ≠ sizeof_info ∨ w.signo ≠ SIGALRM := by
            by_cases hr : to_size_t w.read_ret = sizeof_info
            · exact Or.inr (fun hs => hal ⟨hr, hs⟩)
            · exact Or.inl hr
          have hall : (handle_signal (after_wait s w) w).1 = -1 ∧
              (handle_signal (after_wait s w) w).2.cfg = (after_wait s w).cfg ∧
              (handle_signal (after_wait s w) w).2.trace =
                (after_wait s w).trace ++ [Call.read (after_wait s w).cfg.signal_fd] := by
            rcases hbad with hb | hb
            · exact handle_signal_short_read _ w hb
            · exact handle_signal_not_alarm _ w hb
          have hl : main_loop s (w :: ws) =
              (LoopEnd.done, (handle_signal (after_wait s w) w).2) := by
            rw [main_loop_signal s w ws hn hfd, hall.1]; simp
          rw [hl, hk]
          refine ⟨?_, ?_⟩
          · simp only [hall.2.1, after_wait_cfg]
            simp [← ht]
          · simp only [hall.2.2, after_wait_trace, after_wait_cfg, stats_count_append]
            simp [stats_count, List.countP_cons, is_pcap_stats]
      · by_cases hpf : w.fd = s.cfg.pcap_fd
        · have hg := get_pcap_data_trace (after_wait s w) w
          rw [after_wait_cfg, after_wait_trace] at hg
          by_cases hneg : w.dispatch_ret < 0
          · have hk : alarms_handled s.cfg.signal_fd s.cfg.pcap_fd (w :: ws) = 0 :=
              alarms_handled_dispatch_error _ _ w ws hn2 hfd hpf hneg
            have hlt : (get_pcap_data (after_wait s w) w).1 < 0 := hg.2.2.mpr hneg
            have hl : main_loop s (w :: ws) =
                (LoopEnd.done, (get_pcap_data (after_wait s w) w).2) := by
              rw [main_loop_pcap s w ws hn hfd hpf, if_pos hlt]
            rw [hl, hk]
            refine ⟨?_, ?_⟩
            · simp only [hg.1]
              simp [← ht]
            · simp only [hg.2.1, stats_count_append]
              simp [stats_count, List.countP_cons, is_pcap_stats]
          · have hk : alarms_handled s.cfg.signal_fd s.cfg.pcap_fd (w :: ws) =
                alarms_handled s.cfg.signal_fd s.cfg.pcap_fd ws :=
              alarms_handled_dispatch _ _ w ws hn2 hfd hpf hneg
            have hge : ¬ (get_pcap_data (after_wait s w) w).1 < 0 := fun h => hneg (hg.2.2.mp h)
            have hl : main_loop s (w :: ws) =
                main_loop (get_pcap_data (after_wait s w) w).2 ws := by
              rw [main_loop_pcap s w ws hn hfd hpf, if_neg hge]
            rw [hk] at hmax ⊢
            have hih := ih (get_pcap_data (after_wait s w) w).2 t (by rw [hg.1]; exact ht)
              (by rw [hg.1]; exact hmax)
            rw [hl]
            rw [hg.1] at hih
            refine ⟨hih.1, ?_⟩
            rw [hih.2, hg.2.1]
            simp only [stats_count_append]
            simp [stats_count, List.countP_cons, is_pcap_stats]
        · have hk : alarms_handled s.cfg.signal_fd s.cfg.pcap_fd (w :: ws) =
              alarms_handled s.cfg.signal_fd s.cfg.pcap_fd ws :=
            alarms_handled_other _ _ w ws hn2 hfd hpf
          rw [main_loop_other s w ws hn hfd hpf]
          rw [hk] at hmax ⊢
          have hih := ih (after_wait s w) t (by rw [after_wait_cfg]; exact ht)
            (by rw [after_wait_cfg]; exact hmax)
          rw [after_wait_cfg] at hih
          refine ⟨hih.1, ?_⟩
          rw [hih.2, after_wait_trace]
          simp only [stats_count_append]
          simp [stats_count, List.countP_cons, is_pcap_stats]
    · have hn2 : ¬ w.n > 0 := hn
      have hk : alarms_handled s.cfg.signal_fd s.cfg.pcap_fd (w :: ws) = 0 :=
        alarms_handled_nonpos _ _ w ws hn2
      rw [main_loop_nonpos s w ws (by omega), hk]
      refine ⟨?_, ?_⟩
      · simp [← ht]
      · simp [stats_count, List.countP_cons, is_pcap_stats]

/-- The code at `done` neither touches `cfg` nor issues a statistics query. -/
theorem serve_counts (s : St) (ws : List Wake) :
    (serve s ws).2.cfg = (main_loop s ws).2.cfg ∧
    stats_count (serve s ws).2.trace = stats_count (main_loop s ws).2.trace := by
  unfold serve
  generalize main_loop s ws = q
  obtain ⟨e, s2⟩ := q
  cases e
  · simp only [teardown_cfg, teardown_trace, stats_count_append, stats_count_teardown_calls]
    simp
  · simp

/-- A script after which the loop is still blocked in `epoll_wait` can be
continued: the loop on the longer script goes on from the state in which that
wait was entered, and the alarms of both parts add up. -/
theorem main_loop_append (pre : List Wake) :
    ∀ s : St, (main_loop s pre).1 = LoopEnd.blocked →
      ∃ s1, (main_loop s pre).2 = call s1 (Call.epoll_wait s1.cfg.epoll_fd) ∧
        same_but_ticks s.cfg s1.cfg ∧
        (∀ ws, main_loop s (pre ++ ws) = main_loop s1 ws) ∧
        (∀ ws, alarms_handled s.cfg.signal_fd s.cfg.pcap_fd (pre ++ ws) =
          alarms_handled s.cfg.signal_fd s.cfg.pcap_fd pre +
            alarms_handled s.cfg.signal_fd s.cfg.pcap_fd ws) := by
  induction pre with
  | nil =>
    intro s _
    exact ⟨s, rfl, rfl, fun ws => rfl, fun ws => by simp [alarms_handled]⟩
  | cons w pre ih =>
    intro s hb
    by_cases hn : 0 < w.n
    · have hn2 : w.n > 0 := hn
      by_cases hfd : w.fd = s.cfg.signal_fd
      · have hret := handle_signal_ret (after_wait s w) w
        have hfr := (handle_signal_frame (after_wait s w) w).1
        rw [after_wait_cfg] at hfr
        by_cases hal : to_size_t w.read_ret = sizeof_info ∧ w.signo = SIGALRM
        · rw [if_pos hal] at hret
          have hl : ∀ ws, main_loop s (w :: ws) =
              main_loop (handle_signal (after_wait s w) w).2 ws := by
            intro ws
            rw [main_loop_signal s w ws hn hfd, hret]; simp
          rw [hl] at hb
          obtain ⟨s1, h1, h2, h3, h4⟩ := ih _ hb
          have e1 : (handle_signal (after_wait s w) w).2.cfg.signal_fd = s.cfg.signal_fd := by
            unfold same_but_ticks at hfr; rw [hfr]
          have e2 : (handle_signal (after_wait s w) w).2.cfg.pcap_fd = s.cfg.pcap_fd := by
            unfold same_but_ticks at hfr; rw [hfr]
          rw [e1, e2] at h4
          refine ⟨s1, by rw [hl]; exact h1, same_but_ticks_trans _ _ _ hfr h2, ?_, ?_⟩
          · intro ws
            rw [List.cons_append, hl]; exact h3 ws
          · intro ws
            rw [List.cons_append, alarms_handled_alarm _ _ w _ hn2 hfd hal,
              alarms_handled_alarm _ _ w _ hn2 hfd hal, h4 ws]
            omega
        · rw [if_neg hal] at hret
          rw [main_loop_signal s w pre hn hfd, hret] at hb
          simp at hb
      · by_cases hpf : w.fd = s.cfg.pcap_fd
        · have hg := get_pcap_data_trace (after_wait s w) w
          rw [after_wait_cfg] at hg
          by_cases hneg : w.dispatch_ret < 0
          · have hlt : (get_pcap_data (after_wait s w) w).1 < 0 := hg.2.2.mpr hneg
            rw [main_loop_pcap s w pre hn hfd hpf, if_pos hlt] at hb
            simp at hb
          · have hge : ¬ (get_pcap_data (after_wait s w) w).1 < 0 := fun h => hneg (hg.2.2.mp h)
            have hl : ∀ ws, main_loop s (w :: ws) =
                main_loop (get_pcap_data (after_wait s w) w).2 ws := by
              intro ws
              rw [main_loop_pcap s w ws hn hfd hpf, if_neg hge]
            rw [hl] at hb
            obtain ⟨s1, h1, h2, h3, h4⟩ := ih _ hb
            rw [hg.1] at h2 h4
            refine ⟨s1, by rw [hl]; exact h1, h2, ?_, ?_⟩
            · intro ws
              rw [List.cons_append, hl]; exact h3 ws
            · intro ws
              rw [List.cons_append, alarms_handled_dispatch _ _ w _ hn2 hfd hpf hneg,
                alarms_handled_dispatch _ _ w _ hn2 hfd hpf hneg]
              exact h4 ws
        · have hl : ∀ ws, main_loop s (w :: ws) = main_loop (after_wait s w) ws :=
            fun ws => main_loop_other s w ws hn hfd hpf
          rw [hl] at hb
          obtain ⟨s1, h1, h2, h3, h4⟩ := ih _ hb
          rw [after_wait_cfg] at h2 h4
          refine ⟨s1, by rw [hl]; exact h1, h2, ?_, ?_⟩
          · intro ws
            rw [List.cons_append, hl]; exact h3 ws
          · intro ws
            rw [List.cons_append, alarms_handled_other _ _ w _ hn2 hfd hpf,
              alarms_handled_other _ _ w _ hn2 hfd hpf]
            exact h4 ws
    · rw [main_loop_nonpos s w pre (by omega)] at hb
      simp at hb

/-- The calls made for one more alarm after a script that left the loop
blocked: the read, a statistics query exactly when the verbosity is non-zero
and the number of this alarm is a multiple of 10, the re-arming, the next
wait. -/
theorem main_loop_next_alarm (s : St) (pre : List Wake) (w : Wake)
    (h0 : s.cfg.ticks = 0) (hb : (main_loop s pre).1 = LoopEnd.blocked)
    (hk : (alarms_handled s.cfg.signal_fd s.cfg.pcap_fd pre : Int) < INT_MAX)
    (hn : 0 < w.n) (hfd : w.fd = s.cfg.signal_fd)
    (hr : to_size_t w.read_ret = sizeof_info) (hsig : w.signo = SIGALRM) :
    (main_loop s (pre ++ [w])).1 = LoopEnd.blocked ∧
    (main_loop s (pre ++ [w])).2.trace =
      (main_loop s pre).2.trace ++ [Call.read s.cfg.signal_fd] ++
        (if s.cfg.verbose ≠ 0 ∧
            (alarms_handled s.cfg.signal_fd s.cfg.pcap_fd pre + 1) % 10 = 0
          then [Call.pcap_stats s.cfg.pcap] else []) ++
        [Call.alarm 1, Call.epoll_wait s.cfg.epoll_fd] := by
  obtain ⟨s1, h1, h2, h3, _⟩ := main_loop_append pre s hb
  have hc := (main_loop_counts pre s 0 (by simpa using h0)
    (by simp only [Nat.cast_zero, zero_add]; omega)).1
  have hc1 : s1.cfg = { s.cfg with
      ticks := ((alarms_handled s.cfg.signal_fd s.cfg.pcap_fd pre : Nat) : Int) } := by
    have : (main_loop s pre).2.cfg = s1.cfg := by rw [h1]; rfl
    rw [← this, hc]; simp
  have hfd1 : w.fd = s1.cfg.signal_fd := by rw [hc1]; exact hfd
  have ha := handle_signal_alarm (after_wait s1 w) w hr hsig
    (by simp only [after_wait_cfg, hc1]; omega)
    (by simp only [after_wait_cfg, hc1]; exact hk)
  have hl : main_loop s1 [w] = main_loop (handle_signal (after_wait s1 w) w).2 [] := by
    rw [main_loop_signal s1 w [] hn hfd1, ha.1]; simp
  rw [h3 [w], hl, main_loop_nil, h1]
  refine ⟨rfl, ?_⟩
  simp only [call_trace, call_cfg, ha.2.2, ha.2.1, after_wait_trace, after_wait_cfg, hc1]
  have hiff : (((alarms_handled s.cfg.signal_fd s.cfg.pcap_fd pre : Nat) : Int) + 1) % 10 = 0 ↔
      (alarms_handled s.cfg.signal_fd s.cfg.pcap_fd pre + 1) % 10 = 0 := by omega
  simp only [hiff]
  split <;> simp

/-! ## The statistics cadence -/

/-- C10. Take any state with `cfg.ticks = 0` and any script of wakes
(alarms, packets, other descriptors, in any order, ending in any way) in
which the loop handles `N` alarms, `N` not above `INT_MAX`. Then `cfg.ticks`
equals `N` when the loop is left or blocks, also after the code at `done`;
the number of `pcap_stats` queries issued is `N / 10` at non-zero verbosity
and 0 at verbosity 0; and for every alarm of the script that the loop
reaches, the calls made for it are the read, a `pcap_stats` query exactly
when the verbosity is non-zero and the number of that alarm (counted from 1)
is a multiple of 10, then `alarm(1)` and the next wait. -/
theorem stats_every_tenth_alarm (N : Nat) (s : St) (ws : List Wake)
    (hN : (N : Int) ≤ INT_MAX) (h0 : s.cfg.ticks = 0)
    (hcount : alarms_handled s.cfg.signal_fd s.cfg.pcap_fd ws = N) :
    (main_loop s ws).2.cfg.ticks = (N : Int) ∧
    (serve s ws).2.cfg.ticks = (N : Int) ∧
    stats_count (main_loop s ws).2.trace =
      stats_count s.trace + (if s.cfg.verbose = 0 then 0 else N / 10) ∧
    stats_count (serve s ws).2.trace =
      stats_count s.trace + (if s.cfg.verbose = 0 then 0 else N / 10) ∧
    (∀ (pre : List Wake) (w : Wake) (post : List Wake), ws = pre ++ w :: post →
      (main_loop s pre).1 = LoopEnd.blocked →
      0 < w.n → w.fd = s.cfg.signal_fd → to_size_t w.read_ret = sizeof_info →
      w.signo = SIGALRM →
      alarms_handled s.cfg.signal_fd s.cfg.pcap_fd pre + 1 ≤ N ∧
      (main_loop s (pre ++ [w])).2.trace =
        (main_loop s pre).2.trace ++ [Call.read s.cfg.signal_fd] ++
          (if s.cfg.verbose ≠ 0 ∧
              (alarms_handled s.cfg.signal_fd s.cfg.pcap_fd pre + 1) % 10 = 0
            then [Call.pcap_stats s.cfg.pcap] else []) ++
          [Call.alarm 1, Call.epoll_wait s.cfg.epoll_fd]) := by
  have hc := main_loop_counts ws s 0 (by simpa using h0)
    (by rw [hcount]; simpa using hN)
  rw [hcount] at hc
  have hs := serve_counts s ws
  have e1 : (main_loop s ws).2.cfg.ticks = (N : Int) := by rw [hc.1]; simp
  have e2 : stats_count (main_loop s ws).2.trace =
      stats_count s.trace + (if s.cfg.verbose = 0 then 0 else N / 10) := by
    rw [hc.2]; simp
  refine ⟨e1, by rw [hs.1]; exact e1, e2, by rw [hs.2]; exact e2, ?_⟩
  intro pre w post hws hb hn hfd hr hsig
  obtain ⟨_, _, _, _, h4⟩ := main_loop_append pre s hb
  have hsum := h4 (w :: post)
  rw [← hws, hcount, alarms_handled_alarm _ _ w post hn hfd ⟨hr, hsig⟩] at hsum
  have hle : alarms_handled s.cfg.signal_fd s.cfg.pcap_fd pre + 1 ≤ N := by omega
  refine ⟨hle, ?_⟩
  exact (main_loop_next_alarm s pre w h0 hb (by unfold INT_MAX at hN ⊢; omega)
    hn hfd hr hsig).2

/-- Witness for C10: 9 alarms, a packet wake, 11 more alarms and then
`SIGINT`, at verbosity 1: 20 alarms are handled and two queries issued. -/
theorem stats_every_tenth_alarm_witness :
    stats_count (serve st_running
      (List.replicate 9 (wake_signal 3 SIGALRM) ++ [wake_pcap 5 0] ++
        List.replicate 11 (wake_signal 3 SIGALRM) ++ [wake_signal 3 SIGINT])).2.trace =
      stats_count st_running.trace + (if st_running.cfg.verbose = 0 then 0 else 20 / 10) :=
  (stats_every_tenth_alarm 20 st_running
    (List.replicate 9 (wake_signal 3 SIGALRM) ++ [wake_pcap 5 0] ++
      List.replicate 11 (wake_signal 3 SIGALRM) ++ [wake_signal 3 SIGINT])
    (by decide) (by decide) (by decide)).2.2.2.1

/-- C2, counterexample. Run without `-v` (verbosity 0) in an environment in
which start-up succeeds and ten alarms are then delivered: the tick counter
reaches 10 and no `pcap_stats` query has been issued. -/
theorem ten_alarms_one_query_counterexample :
    (main "pcap-epoll" []
      { env_ok with script := List.replicate 10 (wake_signal 3 SIGALRM) }).2.cfg.ticks = 10 ∧
    (main "pcap-epoll" []
      { env_ok with script := List.replicate 10 (wake_signal 3 SIGALRM) }).2.cfg.verbose = 0 ∧
    stats_count (main "pcap-epoll" []
      { env_ok with script := List.replicate 10 (wake_signal 3 SIGALRM) }).2.trace = 0 := by
  decide

/-- C2, amended. Take any state with `cfg.ticks = 0` and any script of wakes
(alarms, packets, other descriptors, in any order, ending in any way) in
which the loop handles exactly 10 alarms. Then `cfg.ticks` is 10, and exactly
one `pcap_stats` query has been issued if the verbosity is non-zero, none if
the verbosity is 0; the same holds after the code at `done`. -/
theorem ten_alarms_one_query_if_verbose (s : St) (ws : List Wake)
    (h0 : s.cfg.ticks = 0)
    (hcount : alarms_handled s.cfg.signal_fd s.cfg.pcap_fd ws = 10) :
    (main_loop s ws).2.cfg.ticks = 10 ∧
    (serve s ws).2.cfg.ticks = 10 ∧
    (s.cfg.verbose ≠ 0 →
      stats_count (main_loop s ws).2.trace = stats_count s.trace + 1 ∧
      stats_count (serve s ws).2.trace = stats_count s.trace + 1) ∧
    (s.cfg.verbose = 0 →
      stats_count (main_loop s ws).2.trace = stats_count s.trace ∧
      stats_count (serve s ws).2.trace = stats_count s.trace) := by
  have hc := main_loop_counts ws s 0 (by simpa using h0)
    (by rw [hcount]; decide)
  rw [hcount] at hc
  have hs := serve_counts s ws
  have e1 : (main_loop s ws).2.cfg.ticks = 10 := by rw [hc.1]; simp
  refine ⟨e1, by rw [hs.1]; exact e1, ?_, ?_⟩
  · intro hv
    have e2 : stats_count (main_loop s ws).2.trace = stats_count s.trace + 1 := by
      rw [hc.2]; simp [hv]
    exact ⟨e2, by rw [hs.2]; exact e2⟩
  · intro hv
    have e2 : stats_count (main_loop s ws).2.trace = stats_count s.trace := by
      rw [hc.2]; simp [hv]
    exact ⟨e2, by rw [hs.2]; exact e2⟩

/-- Witness for the amended C2: four alarms, a packet wake, a wake for an
unknown descriptor and six more alarms in the running example state. -/
theorem ten_alarms_one_query_if_verbose_witness :
    stats_count (main_loop st_running
      (List.replicate 4 (wake_signal 3 SIGALRM) ++ [wake_pcap 5 0, wake_pcap 9 0] ++
        List.replicate 6 (wake_signal 3 SIGALRM))).2.trace =
      stats_count st_running.trace + 1 :=
  ((ten_alarms_one_query_if_verbose st_running
    (List.replicate 4 (wake_signal 3 SIGALRM) ++ [wake_pcap 5 0, wake_pcap 9 0] ++
      List.replicate 6 (wake_signal 3 SIGALRM))
    (by decide) (by decide)).2.2.1 (by decide)).1

/-! ## Session bookkeeping up to the label `done` -/

theorem loop_calls_close_nothing (l : List Call) (h : l.all is_loop_call = true) :
    l.countP is_pcap_close = 0 ∧ l.countP is_close = 0 ∧
    ∀ d sl, Call.pcap_open_live d sl 1 0 ∉ l := by
  rw [List.all_eq_true] at h
  refine ⟨?_, ?_, ?_⟩
  · rw [List.countP_eq_zero]
    intro c hc
    have := h c hc
    cases c <;> simp_all [is_loop_call, is_pcap_close]
  · rw [List.countP_eq_zero]
    intro c hc
    have := h c hc
    cases c <;> simp_all [is_loop_call, is_close]
  · intro d sl hm
    have := h _ hm
    simp [is_loop_call] at this

theorem session_inv_getopt (env : Env) (argv0 : String) (opts : List Opt) :
    session_inv env (getopt_loop (st_init argv0) opts).2 ∧
    (getopt_loop (st_init argv0) opts).2.trace = [] ∧
    (getopt_loop (st_init argv0) opts).2.cfg.pcap = 0 ∧
    (getopt_loop (st_init argv0) opts).2.cfg.pcap_fd = -1 ∧
    (getopt_loop (st_init argv0) opts).2.cfg.ticks = 0 ∧
    (getopt_loop (st_init argv0) opts).2.cfg.snaplen = 65535 := by
  obtain ⟨h1, h2, h3, h4, h5⟩ := getopt_loop_frame opts (st_init argv0)
  have e1 : (st_init argv0).trace = [] := rfl
  have e2 : (st_init argv0).cfg.pcap = 0 := rfl
  have e3 : (st_init argv0).cfg.pcap_fd = -1 := rfl
  have e4 : (st_init argv0).cfg.ticks = 0 := rfl
  have e5 : (st_init argv0).cfg.snaplen = 65535 := rfl
  rw [e1] at h1; rw [e2] at h2; rw [e3] at h3; rw [e4] at h4; rw [e5] at h5
  refine ⟨?_, h1, h2, h3, h4, h5⟩
  unfold session_inv
  rw [h1, h2, h3]
  simp

theorem session_inv_startup (env : Env) (s : St) (ht : s.trace = [])
    (hp : s.cfg.pcap = 0) (hf : s.cfg.pcap_fd = -1) :
    session_inv env (startup s env).2 := by
  unfold session_inv startup
  simp only [sigs_mask, call_cfg, new_epoll_ret, new_epoll_cfg, set_filter_cfg]
  split_ifs <;>
    simp_all [new_epoll_trace, new_epoll_cfg, set_filter_trace, set_filter_cfg,
      List.countP_cons, List.countP_append, is_pcap_close, is_close, filter_calls] <;>
    (split <;> (try split) <;> simp [List.countP_cons, is_pcap_close, is_close])

theorem session_inv_loop (env : Env) (s : St) (ws : List Wake) (h : session_inv env s) :
    session_inv env (main_loop s ws).2 := by
  obtain ⟨hc, l, hl, hlc⟩ := main_loop_frame ws s
  have hall : (Call.epoll_wait s.cfg.epoll_fd :: l).all is_loop_call = true := by
    rw [List.all_cons, hlc]; rfl
  obtain ⟨k1, k2, k3⟩ := loop_calls_close_nothing _ hall
  have hp : (main_loop s ws).2.cfg.pcap = s.cfg.pcap := by
    unfold same_but_ticks at hc; rw [hc]
  have hf : (main_loop s ws).2.cfg.pcap_fd = s.cfg.pcap_fd := by
    unfold same_but_ticks at hc; rw [hc]
  obtain ⟨i1, i2, i3, i4, i5, i6⟩ := h
  unfold session_inv
  rw [hp, hf, hl]
  refine ⟨?_, ?_, ?_, ?_, ?_, i6⟩
  · rw [List.countP_append, i1, k1]
  · rw [List.countP_append, i2, k2]
  · intro hne
    obtain ⟨e, d, sl, hm⟩ := i3 hne
    exact ⟨e, d, sl, List.mem_append_left _ hm⟩
  · intro hpos
    obtain ⟨e, hm⟩ := i4 hpos
    exact ⟨e, List.mem_append_left _ hm⟩
  · rintro ⟨d, sl, hm⟩
    rcases List.mem_append.mp hm with hm | hm
    · exact i5 ⟨d, sl, hm⟩
    · exact absurd hm (k3 d sl)

/-- What the code at `done` closes, in a state that satisfies the session
bookkeeping. -/
theorem teardown_session (env : Env) (s : St) (h : session_inv env s) :
    (teardown s).trace.countP is_pcap_close ≤ 1 ∧
    (teardown s).trace.countP is_close ≤ 1 ∧
    (∀ p, Call.pcap_close p ∈ (teardown s).trace →
      p ≠ 0 ∧ p = env.pcap_open_ret ∧ ∃ d sl, Call.pcap_open_live d sl 1 0 ∈ (teardown s).trace) ∧
    ((∃ d sl, Call.pcap_open_live d sl 1 0 ∈ (teardown s).trace) → env.pcap_open_ret ≠ 0 →
      (teardown s).trace.countP is_pcap_close = 1) ∧
    (∀ fd, Call.close fd ∈ (teardown s).trace →
      0 < fd ∧ fd = env.selectable_fd ∧
      Call.pcap_get_selectable_fd env.pcap_open_ret ∈ (teardown s).trace) ∧
    (env.signalfd_ret = -1 ∨ env.epoll_create_ret = -1 ∨ env.ctl_signal_ret ≠ 0 ∨
        env.pcap_open_ret = 0 →
      (teardown s).trace.countP is_pcap_close = 0 ∧ (teardown s).trace.countP is_close = 0) := by
  obtain ⟨i1, i2, i3, i4, i5, i6⟩ := h
  have n1 : ∀ p, Call.pcap_close p ∉ s.trace := by
    intro p hm
    have := (List.countP_eq_zero.mp i1) _ hm
    simp [is_pcap_close] at this
  have n2 : ∀ fd, Call.close fd ∉ s.trace := by
    intro fd hm
    have := (List.countP_eq_zero.mp i2) _ hm
    simp [is_close] at this
  rw [teardown_trace]
  unfold teardown_calls
  by_cases hp : s.cfg.pcap = 0
  · by_cases hf : 0 < s.cfg.pcap_fd
    · obtain ⟨e, hm⟩ := i4 hf
      simp only [hp, hf, ne_eq, not_true_eq_false, if_false, if_true, List.nil_append,
        List.countP_append, i1, i2, gt_iff_lt]
      refine ⟨by simp [List.countP_cons, is_pcap_close],
        by simp [List.countP_cons, is_close], ?_, ?_, ?_, ?_⟩
      · intro p hmem
        simp only [List.mem_append, List.mem_singleton] at hmem
        rcases hmem with hmem | hmem
        · exact absurd hmem (n1 p)
        · cases hmem
      · rintro ⟨d, sl, hmem⟩ hne
        simp only [List.mem_append, List.mem_singleton] at hmem
        rcases hmem with hmem | hmem
        · exact absurd ((i5 ⟨d, sl, hmem⟩).symm.trans hp) hne
        · cases hmem
      · intro fd hmem
        simp only [List.mem_append, List.mem_singleton] at hmem
        rcases hmem with hmem | hmem
        · exact absurd hmem (n2 fd)
        · cases hmem
          exact ⟨hf, e, List.mem_append_left _ hm⟩
      · intro hbad
        have := (i6 hbad).2
        omega
    · simp only [hp, hf, ne_eq, not_true_eq_false, if_false, List.append_nil, i1, i2,
        gt_iff_lt]
      refine ⟨by simp, by simp, ?_, ?_, ?_, ?_⟩
      · intro p hmem; exact absurd hmem (n1 p)
      · rintro ⟨d, sl, hmem⟩ hne
        exact absurd ((i5 ⟨d, sl, hmem⟩).symm.trans hp) hne
      · intro fd hmem; exact absurd hmem (n2 fd)
      · intro _; exact ⟨trivial, trivial⟩
  · obtain ⟨e, d, sl, hm⟩ := i3 hp
    have hbad : ¬ (env.signalfd_ret = -1 ∨ env.epoll_create_ret = -1 ∨
        env.ctl_signal_ret ≠ 0 ∨ env.pcap_open_ret = 0) := fun hb => hp (i6 hb).1
    by_cases hf : 0 < s.cfg.pcap_fd
    · obtain ⟨e2, hm2⟩ := i4 hf
      simp only [hp, hf, ne_eq, not_false_eq_true, if_true, List.countP_append, i1, i2,
        gt_iff_lt]
      refine ⟨by simp [List.countP_cons, is_pcap_close, is_close],
        by simp [List.countP_cons, is_pcap_close, is_close], ?_, ?_, ?_, ?_⟩
      · intro p hmem
        simp only [List.mem_append, List.mem_singleton] at hmem
        rcases hmem with hmem | hmem | hmem
        · exact absurd hmem (n1 p)
        · cases hmem
          exact ⟨hp, e, d, sl, List.mem_append_left _ hm⟩
        · cases hmem
      · intro _ _
        simp [List.countP_cons, is_pcap_close, is_close]
      · intro fd hmem
        simp only [List.mem_append, List.mem_singleton] at hmem
        rcases hmem with hmem | hmem | hmem
        · exact absurd hmem (n2 fd)
        · cases hmem
        · cases hmem
          exact ⟨hf, e2, List.mem_append_left _ hm2⟩
      · intro hb; exact absurd hb hbad
    · simp only [hp, hf, ne_eq, not_false_eq_true, if_true, if_false, List.append_nil,
        List.countP_append, i1, i2, gt_iff_lt]
      refine ⟨by simp [List.countP_cons, is_pcap_close, is_close],
        by simp [List.countP_cons, is_pcap_close, is_close], ?_, ?_, ?_, ?_⟩
      · intro p hmem
        simp only [List.mem_append, List.mem_singleton] at hmem
        rcases hmem with hmem | hmem
        · exact absurd hmem (n1 p)
        · cases hmem
          exact ⟨hp, e, d, sl, List.mem_append_left _ hm⟩
      · intro _ _
        simp [List.countP_cons, is_pcap_close, is_close]
      · intro fd hmem
        simp only [List.mem_append, List.mem_singleton] at hmem
        rcases hmem with hmem | hmem
        · exact absurd hmem (n2 fd)
        · cases hmem
      · intro hb; exact absurd hb hbad

/-! ## The three ways through `main` -/

theorem main_usage (argv0 : String) (opts : List Opt) (env : Env) (h : ¬ no_usage opts) :
    main argv0 opts env = (Outcome.exited (-1), (getopt_loop (st_init argv0) opts).2) := by
  have hg := getopt_loop_usage opts (st_init argv0) h
  unfold main
  generalize getopt_loop (st_init argv0) opts = r at hg ⊢
  obtain ⟨b, s⟩ := r
  simp only at hg
  subst hg
  rfl

theorem main_gives_up (argv0 : String) (opts : List Opt) (env : Env) (h : no_usage opts)
    (hbad : ¬ startup_ok env) :
    main argv0 opts env =
      (Outcome.exited 0, teardown (startup (getopt_loop (st_init argv0) opts).2 env).2) := by
  have hg := (getopt_loop_no_usage opts (st_init argv0) h).1
  have hs := startup_gives_up (getopt_loop (st_init argv0) opts).2 env hbad
  unfold main
  generalize getopt_loop (st_init argv0) opts = r at hg hs ⊢
  obtain ⟨b, s⟩ := r
  simp only at hg hs
  subst hg
  simp only []
  generalize startup s env = r2 at hs ⊢
  obtain ⟨b2, s2⟩ := r2
  simp only at hs
  subst hs
  rfl

theorem main_serves (argv0 : String) (opts : List Opt) (env : Env) (h : no_usage opts)
    (hok : startup_ok env) :
    main argv0 opts env =
      serve (startup (getopt_loop (st_init argv0) opts).2 env).2 env.script := by
  have hg := (getopt_loop_no_usage opts (st_init argv0) h).1
  have hs := (startup_reaches_loop (getopt_loop (st_init argv0) opts).2 env hok).1
  unfold main
  generalize getopt_loop (st_init argv0) opts = r at hg hs ⊢
  obtain ⟨b, s⟩ := r
  simp only at hg hs
  subst hg
  simp only []
  generalize startup s env = r2 at hs ⊢
  obtain ⟨b2, s2⟩ := r2
  simp only at hs
  subst hs
  rfl

theorem main_cases (argv0 : String) (opts : List Opt) (env : Env) :
    ∃ s, session_inv env s ∧
      ((main argv0 opts env = (Outcome.exited (-1), s) ∧ s.trace = []) ∨
       main argv0 opts env = (Outcome.exited 0, teardown s) ∨
       main argv0 opts env = (Outcome.blocked, s)) := by
  obtain ⟨hi, ht, hp, hf, _, _⟩ := session_inv_getopt env argv0 opts
  by_cases hu : no_usage opts
  · have hinv := session_inv_startup env _ ht hp hf
    by_cases hok : startup_ok env
    · have hm := main_serves argv0 opts env hu hok
      have hl := session_inv_loop env _ env.script hinv
      generalize startup (getopt_loop (st_init argv0) opts).2 env = r at hm hl
      unfold serve at hm
      generalize main_loop r.2 env.script = q at hm hl
      obtain ⟨e, s2⟩ := q
      cases e
      · exact ⟨s2, hl, Or.inr (Or.inl hm)⟩
      · exact ⟨s2, hl, Or.inr (Or.inr hm)⟩
    · exact ⟨_, hinv, Or.inr (Or.inl (main_gives_up argv0 opts env hu hok))⟩
  · exact ⟨_, hi, Or.inl ⟨main_usage argv0 opts env hu, ht⟩⟩

theorem session_inv_open (env : Env) (s : St) (h : session_inv env s) :
    s.trace.countP is_pcap_close = 0 ∧ s.trace.countP is_close = 0 ∧
    (∀ p, Call.pcap_close p ∉ s.trace) ∧ (∀ fd, Call.close fd ∉ s.trace) := by
  obtain ⟨i1, i2, _⟩ := h
  refine ⟨i1, i2, ?_, ?_⟩
  · intro p hm
    have := (List.countP_eq_zero.mp i1) _ hm
    simp [is_pcap_close] at this
  · intro fd hm
    have := (List.countP_eq_zero.mp i2) _ hm
    simp [is_close] at this

/-! ## Disposal of the capture session and of its descriptor -/

/-- The calls `pcap_close` and `close` on every path through `main`:
`pcap_close` is called at most once, only on the non-null handle that a
recorded `pcap_open_live` returned, and exactly once whenever `main` exits
after a successful `pcap_open_live`; `close` is called at most once, only on a
positive descriptor that a recorded `pcap_get_selectable_fd` returned; and
when `signalfd`, `epoll_create`, the registration of the signal descriptor or
`pcap_open_live` fails, neither is called at all. -/
theorem main_close_calls (argv0 : String) (opts : List Opt) (env : Env) :
    (main argv0 opts env).2.trace.countP is_pcap_close ≤ 1 ∧
    (main argv0 opts env).2.trace.countP is_close ≤ 1 ∧
    (∀ p, Call.pcap_close p ∈ (main argv0 opts env).2.trace →
      p ≠ 0 ∧ p = env.pcap_open_ret ∧
      ∃ d sl, Call.pcap_open_live d sl 1 0 ∈ (main argv0 opts env).2.trace) ∧
    ((∃ st, (main argv0 opts env).1 = Outcome.exited st) →
      (∃ d sl, Call.pcap_open_live d sl 1 0 ∈ (main argv0 opts env).2.trace) →
      env.pcap_open_ret ≠ 0 →
      (main argv0 opts env).2.trace.countP is_pcap_close = 1) ∧
    (∀ fd, Call.close fd ∈ (main argv0 opts env).2.trace →
      0 < fd ∧ fd = env.selectable_fd ∧
      Call.pcap_get_selectable_fd env.pcap_open_ret ∈ (main argv0 opts env).2.trace) ∧
    (env.signalfd_ret = -1 ∨ env.epoll_create_ret = -1 ∨ env.ctl_signal_ret ≠ 0 ∨
        env.pcap_open_ret = 0 →
      (main argv0 opts env).2.trace.countP is_pcap_close = 0 ∧
      (main argv0 opts env).2.trace.countP is_close = 0) := by
  obtain ⟨s, hinv, hm | hm | hm⟩ := main_cases argv0 opts env
  · obtain ⟨o1, o2, o3, o4⟩ := session_inv_open env s hinv
    rw [hm.1]
    simp only []
    refine ⟨by omega, by omega, fun p h => absurd h (o3 p), ?_, fun fd h => absurd h (o4 fd),
      fun _ => ⟨o1, o2⟩⟩
    intro _ hex
    rw [hm.2] at hex
    obtain ⟨d, sl, hmem⟩ := hex
    cases hmem
  · rw [hm]
    simp only []
    obtain ⟨t1, t2, t3, t4, t5, t6⟩ := teardown_session env s hinv
    exact ⟨t1, t2, t3, fun _ => t4, t5, t6⟩
  · obtain ⟨o1, o2, o3, o4⟩ := session_inv_open env s hinv
    rw [hm]
    simp only []
    refine ⟨by omega, by omega, fun p h => absurd h (o3 p), ?_, fun fd h => absurd h (o4 fd),
      fun _ => ⟨o1, o2⟩⟩
    rintro ⟨st, hst⟩
    cases hst

/-- Whenever the code at `done` runs with an open session whose descriptor
is positive, it closes the session and then the descriptor. -/
theorem teardown_closes_both (s : St) (hp : s.cfg.pcap ≠ 0) (hf : 0 < s.cfg.pcap_fd) :
    (teardown s).trace =
      s.trace ++ [Call.pcap_close s.cfg.pcap, Call.close s.cfg.pcap_fd] := by
  rw [teardown_trace]
  unfold teardown_calls
  simp [hp, hf]

/-- C9, evaluation at the failing input. Start-up succeeds (session 7 with
descriptor 5) and `SIGINT` is delivered. `main` returns after `pcap_close(7)`
followed by `close(5)`: the descriptor is valid until the session that owns it
is closed, and is closed once more afterwards, when it is no longer valid. The
same happens when the registration of the capture descriptor fails during
start-up. -/
theorem descriptor_closed_after_session :
    (main "pcap-epoll" [] { env_ok with script := [wake_signal 3 SIGINT] }).1 =
      Outcome.exited 0 ∧
    (main "pcap-epoll" [] { env_ok with script := [wake_signal 3 SIGINT] }).2.trace =
      [Call.sigprocmask_all,
       Call.signalfd (-1) [SIGHUP, SIGTERM, SIGINT, SIGQUIT, SIGALRM],
       Call.epoll_create 1,
       Call.epoll_ctl_add 4 EPOLLIN 3,
       Call.pcap_open_live "eth0" 65535 1 0,
       Call.pcap_get_selectable_fd 7,
       Call.epoll_ctl_add 4 EPOLLIN 5,
       Call.alarm 1,
       Call.epoll_wait 4,
       Call.read 3,
       Call.pcap_close 7,
       Call.close 5] ∧
    descriptor_valid
      ((main "pcap-epoll" [] { env_ok with script := [wake_signal 3 SIGINT] }).2.trace.take 10)
      7 5 = true ∧
    descriptor_valid
      ((main "pcap-epoll" [] { env_ok with script := [wake_signal 3 SIGINT] }).2.trace.take 11)
      7 5 = false ∧
    (main "pcap-epoll" [] { env_ok with ctl_pcap_ret := -1 }).2.trace =
      [Call.sigprocmask_all,
       Call.signalfd (-1) [SIGHUP, SIGTERM, SIGINT, SIGQUIT, SIGALRM],
       Call.epoll_create 1,
       Call.epoll_ctl_add 4 EPOLLIN 3,
       Call.pcap_open_live "eth0" 65535 1 0,
       Call.pcap_get_selectable_fd 7,
       Call.epoll_ctl_add 4 EPOLLIN 5,
       Call.pcap_close 7,
       Call.close 5] := by
  decide

theorem serve_trace_extends (s : St) (ws : List Wake) :
    ∃ rest, (serve s ws).2.trace = s.trace ++ Call.epoll_wait s.cfg.epoll_fd :: rest := by
  obtain ⟨_, l, hl, _⟩ := main_loop_frame ws s
  unfold serve
  generalize main_loop s ws = q at hl
  obtain ⟨e, s2⟩ := q
  cases e
  · refine ⟨l ++ teardown_calls s2.cfg, ?_⟩
    simp only [teardown_trace]
    simp only at hl
    rw [hl]; simp
  · exact ⟨l, hl⟩

/-! ## Order of the start-up calls -/

/-- C6. When no option asks for the usage text and every start-up call
succeeds, the calls made by `main` begin with exactly: block all signals;
`signalfd` over the mask of `SIGHUP`, `SIGTERM`, `SIGINT`, `SIGQUIT`,
`SIGALRM`; `epoll_create`; registration of the signal descriptor;
`pcap_open_live` on the configured device followed by
`pcap_get_selectable_fd` on the session; `pcap_compile` and `pcap_setfilter`
exactly when a `-f` option was given; registration of the capture descriptor;
`alarm(1)`; and then the first `epoll_wait`. -/
theorem startup_order (argv0 : String) (opts : List Opt) (env : Env)
    (hu : no_usage opts) (hok : startup_ok env)
    (hcomp : env.compile_ret = 0) (hset : env.setfilter_ret = 0) :
    ∃ rest, (main argv0 opts env).2.trace =
      [Call.sigprocmask_all,
       Call.signalfd (-1) [SIGHUP, SIGTERM, SIGINT, SIGQUIT, SIGALRM],
       Call.epoll_create 1,
       Call.epoll_ctl_add env.epoll_create_ret EPOLLIN env.signalfd_ret,
       Call.pcap_open_live (opt_dev opts "eth0") 65535 1 0,
       Call.pcap_get_selectable_fd env.pcap_open_ret] ++
      (match opt_filter opts none with
       | none => []
       | some flt => [Call.pcap_compile env.pcap_open_ret flt,
                      Call.pcap_setfilter env.pcap_open_ret]) ++
      [Call.epoll_ctl_add env.epoll_create_ret EPOLLIN env.selectable_fd,
       Call.alarm 1,
       Call.epoll_wait env.epoll_create_ret] ++ rest := by
  have _hset := hset
  obtain ⟨_, ht, _, _, _, hsl⟩ := session_inv_getopt env argv0 opts
  obtain ⟨_, hfl, hdev⟩ := getopt_loop_no_usage opts (st_init argv0) hu
  have hfl2 : (getopt_loop (st_init argv0) opts).2.cfg.filter = opt_filter opts none := hfl
  have hdev2 : (getopt_loop (st_init argv0) opts).2.cfg.dev = opt_dev opts "eth0" := hdev
  obtain ⟨_, hcfg, htr⟩ := startup_reaches_loop (getopt_loop (st_init argv0) opts).2 env hok
  obtain ⟨rest, hrest⟩ :=
    serve_trace_extends (startup (getopt_loop (st_init argv0) opts).2 env).2 env.script
  refine ⟨rest, ?_⟩
  rw [main_serves argv0 opts env hu hok, hrest, htr, hcfg, ht, hsl, hdev2]
  unfold filter_calls
  rw [hfl2]
  cases opt_filter opts none with
  | none => simp
  | some flt => simp [hcomp]

/-- Witness for C6: a run with `-v -f tcp -i lo` in the all-succeeding
environment. -/
theorem startup_order_witness :
    ∃ rest, (main "pcap-epoll" [Opt.v, Opt.f "tcp", Opt.i "lo"] env_ok).2.trace =
      [Call.sigprocmask_all,
       Call.signalfd (-1) [SIGHUP, SIGTERM, SIGINT, SIGQUIT, SIGALRM],
       Call.epoll_create 1,
       Call.epoll_ctl_add 4 EPOLLIN 3,
       Call.pcap_open_live "lo" 65535 1 0,
       Call.pcap_get_selectable_fd 7] ++
      [Call.pcap_compile 7 "tcp", Call.pcap_setfilter 7] ++
      [Call.epoll_ctl_add 4 EPOLLIN 5, Call.alarm 1, Call.epoll_wait 4] ++ rest :=
  startup_order "pcap-epoll" [Opt.v, Opt.f "tcp", Opt.i "lo"] env_ok
    (by decide) (by decide) (by decide) (by decide)

/-! ## A rejected filter -/

/-- C3, evaluation at the failing input. With `-f "not a filter"` and a
`pcap_compile` that returns -1, `set_filter` returns -1 and logs the error,
yet `main` goes on: it registers the capture descriptor, arms the alarm and
blocks in `epoll_wait`. -/
theorem rejected_filter_still_runs :
    (set_filter
      { cfg := { cfg_init with filter := some "not a filter", pcap := 7, pcap_fd := 5,
                               signal_fd := 3, epoll_fd := 4 },
        trace := [], err := [] }
      { env_ok with compile_ret := -1 }).1 = -1 ∧
    main "pcap-epoll" [Opt.f "not a filter"] { env_ok with compile_ret := -1 } =
      (Outcome.blocked,
       { cfg := { cfg_init with prog := "pcap-epoll", filter := some "not a filter",
                                pcap := 7, pcap_fd := 5, signal_fd := 3, epoll_fd := 4 },
         trace := [Call.sigprocmask_all,
                   Call.signalfd (-1) [SIGHUP, SIGTERM, SIGINT, SIGQUIT, SIGALRM],
                   Call.epoll_create 1,
                   Call.epoll_ctl_add 4 EPOLLIN 3,
                   Call.pcap_open_live "eth0" 65535 1 0,
                   Call.pcap_get_selectable_fd 7,
                   Call.pcap_compile 7 "not a filter",
                   Call.epoll_ctl_add 4 EPOLLIN 5,
                   Call.alarm 1,
                   Call.epoll_wait 4],
         err := [Diag.error_in_filter ""] }) := by
  decide

/-! ## The exit status -/

/-- C4, counterexample. `main` returns 0 when `signalfd` fails, when
`pcap_open_live` fails, when the read of the signal record fails and when
`pcap_dispatch` fails. -/
theorem exit_status_counterexample :
    (main "pcap-epoll" [] { env_ok with signalfd_ret := -1 }).1 = Outcome.exited 0 ∧
    (main "pcap-epoll" [] { env_ok with pcap_open_ret := 0 }).1 = Outcome.exited 0 ∧
    (main "pcap-epoll" []
      { env_ok with script := [{ wake_signal 3 SIGALRM with read_ret := -1 }] }).1 =
        Outcome.exited 0 ∧
    (main "pcap-epoll" [] { env_ok with script := [wake_pcap 5 (-1)] }).1 =
      Outcome.exited 0 := by
  decide

/-- C4, amended. When no option asks for the usage text, every return from
`main` yields status 0: `main` returns 0 when the loop ends because of an
accepted signal other than the alarm, and it equally returns 0 when `signalfd`,
`epoll_create`, either descriptor registration or `pcap_open_live` fails, when
the read of the signal record fails, and when `pcap_dispatch` fails. -/
theorem exit_status_zero (argv0 : String) (opts : List Opt) (env : Env)
    (hu : no_usage opts) :
    (∀ st, (main argv0 opts env).1 = Outcome.exited st → st = 0) ∧
    (env.signalfd_ret = -1 ∨ env.epoll_create_ret = -1 ∨ env.ctl_signal_ret ≠ 0 ∨
        env.pcap_open_ret = 0 ∨ env.ctl_pcap_ret ≠ 0 →
      (main argv0 opts env).1 = Outcome.exited 0) ∧
    (startup_ok env →
      main argv0 opts env =
        serve (startup (getopt_loop (st_init argv0) opts).2 env).2 env.script) ∧
    (∀ (s : St) (w : Wake) (rest : List Wake), 0 < w.n → w.fd = s.cfg.signal_fd →
      to_size_t w.read_ret ≠ sizeof_info ∨ w.signo ≠ SIGALRM →
      (serve s (w :: rest)).1 = Outcome.exited 0) ∧
    (∀ (s : St) (w : Wake) (rest : List Wake), 0 < w.n → w.fd ≠ s.cfg.signal_fd →
      w.fd = s.cfg.pcap_fd → w.dispatch_ret < 0 →
      (serve s (w :: rest)).1 = Outcome.exited 0) := by
  refine ⟨?_, ?_, main_serves argv0 opts env hu, ?_, ?_⟩
  · intro st hst
    by_cases hok : startup_ok env
    · rw [main_serves argv0 opts env hu hok] at hst
      unfold serve at hst
      generalize main_loop _ env.script = q at hst
      obtain ⟨e, s2⟩ := q
      cases e
      · simp only [Outcome.exited.injEq] at hst
        exact hst.symm
      · cases hst
    · rw [main_gives_up argv0 opts env hu hok] at hst
      simp only [Outcome.exited.injEq] at hst
      exact hst.symm
  · intro hbad
    have hnok : ¬ startup_ok env := by
      unfold startup_ok
      intro h
      obtain ⟨h1, h2, h3, h4, h5⟩ := h
      rcases hbad with hb | hb | hb | hb | hb
      · exact h1 hb
      · exact h2 hb
      · exact hb h3
      · exact h4 hb
      · exact hb h5
    rw [main_gives_up argv0 opts env hu hnok]
  · intro s w rest hn hfd hbad
    rw [(serve_signal_error s w rest hn hfd hbad).2.1]
  · intro s w rest hn hsf hpf hneg
    have hg := get_pcap_data_trace (after_wait s w) w
    have hlt : (get_pcap_data (after_wait s w) w).1 < 0 := hg.2.2.mpr hneg
    have hl : main_loop s (w :: rest) = (LoopEnd.done, (get_pcap_data (after_wait s w) w).2) := by
      rw [main_loop_pcap s w rest hn hsf hpf, if_pos hlt]
    rw [serve_done _ _ _ hl]

/-- Witness for the amended C4: a failing `signalfd` and a `SIGTERM`. -/
theorem exit_status_zero_witness :
    (main "pcap-epoll" [Opt.v] { env_ok with signalfd_ret := -1 }).1 = Outcome.exited 0 ∧
    (serve st_running [wake_signal 3 SIGTERM]).1 = Outcome.exited 0 :=
  ⟨(exit_status_zero "pcap-epoll" [Opt.v] { env_ok with signalfd_ret := -1 }
      (by decide)).2.1 (Or.inl (by decide)),
   (exit_status_zero "pcap-epoll" [Opt.v] env_ok (by decide)).2.2.2.1
      st_running (wake_signal 3 SIGTERM) [] (by decide) (by decide) (Or.inr (by decide))⟩

end PcapEpoll
